import Mathlib

/-!
Verification of the sheet-reconciliation script `process_billing.py`.

The script loads two tables (lists of rows of cells) from a remote
spreadsheet service, merges the incoming table into the main table by an
account key, writes the result back, clears the 12th column and installs a
formula, and finally deletes the incoming document.

We embed the merge engine (`processMerge`, from the loop at lines 51-73 of
the source), the write-back and post-processing grid operations, and the
staged pipeline (`runScript`) with explicit success flags for each remote
call, and prove the specification's testable properties against them.

Python semantics captured here:
 - `row[i]` is a fallible access (IndexError when `i ≥ len row`), modelled
   by `List.get?` and `Option`;
 - `row[a:b]` is a truncating slice, modelled by `List.drop`/`List.take`;
 - `row[:4] = vs` (with `vs` of length 4) replaces the first four elements,
   modelled by `updateRow`;
 - a dict comprehension builds an association list where the last binding
   of a key wins, modelled by `buildLookup`/`dictFind`;
 - `not account_b` is truthiness of a cell, modelled by `Cell.falsy`.
-/

/-- A spreadsheet cell: the service returns strings; the script itself
introduces the numeric default `400` in appended rows. -/
inductive Cell where
  | str : String → Cell
  | num : Nat → Cell
deriving DecidableEq

/-- A row of a table, positionally interpreted. -/
abbrev Row := List Cell

/-- Python truthiness test used by `if not account_b:` (line 59). -/
def Cell.falsy : Cell → Bool
  | .str s => s == ""
  | .num n => n == 0

/-- In-place modification of a list element, as Python's
`data_a[row_index_a][:4] = ...` mutates one row of `data_a`. -/
def modifyAt : List α → Nat → (α → α) → List α
  | [], _, _ => []
  | a :: as, 0, f => f a :: as
  | a :: as, n + 1, f => a :: modifyAt as n f

/-- The last element of a list satisfying `p`, if any. -/
def lastWith (p : α → Bool) : List α → Option α
  | [] => none
  | a :: as =>
    match lastWith p as with
    | some b => some b
    | none => if p a then some a else none

/-- The index of the last element of a list satisfying `p`, if any. -/
def lastIdxWith (p : α → Bool) : List α → Option Nat
  | [] => none
  | a :: as =>
    match lastIdxWith p as with
    | some t => some (t + 1)
    | none => if p a then some 0 else none

/-- `lookup_a = {row[4]: i for i, row in enumerate(data_a[1:], 1)}`
(line 51): association list of (key, absolute row index) pairs, in
iteration order, failing if some data row has no index 4. -/
def buildLookupAux : Nat → List Row → Option (List (Cell × Nat))
  | _, [] => some []
  | i, r :: rs =>
    match r.get? 4 with
    | none => none
    | some k => (buildLookupAux (i + 1) rs).map (fun ps => (k, i) :: ps)

/-- The lookup dictionary over the main table's data rows (line 51). -/
def buildLookup (dataA : List Row) : Option (List (Cell × Nat)) :=
  buildLookupAux 1 (dataA.drop 1)

/-- Python-dict lookup on an association list in insertion order: the
last binding of a key wins. -/
def dictFind : List (Cell × Nat) → Cell → Option Nat
  | [], _ => none
  | p :: ps, k =>
    match dictFind ps k with
    | some j => some j
    | none => if p.1 = k then some p.2 else none

/-- `data_a[row_index_a][:4] = row_b[1:5]` (lines 66-68): overwrite the
first four fields of a main row with the incoming row's span 1-4. -/
def updateRow (rowB r : Row) : Row :=
  (rowB.drop 1).take 4 ++ r.drop 4

/-- `new_row_data = row_b[1:8] + [400]` (line 72). -/
def newRowData (rowB : Row) : Row :=
  (rowB.drop 1).take 7 ++ [Cell.num 400]

/-- One iteration of the merge loop (lines 56-73) acting on the state
`(data_a, new_rows)`; `none` is an uncaught IndexError at `row_b[5]`. -/
def mergeStep (lookup : List (Cell × Nat)) (st : List Row × List Row)
    (rowB : Row) : Option (List Row × List Row) :=
  match rowB.get? 5 with
  | none => none
  | some k =>
    if k.falsy then some st
    else
      match dictFind lookup k with
      | some j => some (modifyAt st.1 j (updateRow rowB), st.2)
      | none => some (st.1, st.2 ++ [newRowData rowB])

/-- The merge loop over the incoming data rows (lines 56-73). -/
def mergeLoop (lookup : List (Cell × Nat)) :
    List Row × List Row → List Row → Option (List Row × List Row)
  | st, [] => some st
  | st, rB :: rest =>
    match mergeStep lookup st rB with
    | none => none
    | some st1 => mergeLoop lookup st1 rest

/-- The whole merge stage (lines 51-73): build the lookup from the main
table, then fold the incoming data rows, producing the mutated main table
and the list of rows to append. -/
def processMerge (dataA dataB : List Row) : Option (List Row × List Row) :=
  match buildLookup dataA with
  | none => none
  | some lookup => mergeLoop lookup (dataA, []) (dataB.drop 1)

/-- Whether a key occurs in the main table's key column (index 4 of the
data rows). -/
def keyInMain (dataA : List Row) (k : Cell) : Bool :=
  (dataA.drop 1).any (fun r => r.get? 4 == some k)

/-- Whether the merge loop takes the append branch on this incoming row,
phrased against the internal lookup. -/
def isAppendRow (lookup : List (Cell × Nat)) (rB : Row) : Bool :=
  match rB.get? 5 with
  | none => false
  | some k => !k.falsy && (dictFind lookup k).isNone

/-- Whether an incoming row carries a non-empty key absent from the main
table, phrased against the main table itself. -/
def isNewAccountRow (dataA : List Row) (rB : Row) : Bool :=
  match rB.get? 5 with
  | none => false
  | some k => !k.falsy && !(keyInMain dataA k)

/-- Whether an incoming row triggers an update of main-table row `j`. -/
def rowMatchesIdx (lookup : List (Cell × Nat)) (j : Nat) (rB : Row) : Bool :=
  match rB.get? 5 with
  | none => false
  | some k => !k.falsy && (dictFind lookup k == some j)

/-- A single-quote character (used to spell the formula text). -/
def sqc : String := Char.toString (Char.ofNat 39)

/-- The formula written into cell L2 (line 98 of the source). -/
def formulaL2 : String :=
  "=ARRAYFORMULA(if(A2:A=\"\",\"\",xlookup(XLOOKUP(B2:B," ++ sqc ++ "DTR Details" ++ sqc
    ++ "!L13:L68," ++ sqc ++ "DTR Details" ++ sqc ++ "!M13:M68)," ++ sqc ++ "DTR Details" ++ sqc
    ++ "!L5:L9," ++ sqc ++ "DTR Details" ++ sqc ++ "!M5:M9)))"

/-- `sheet_a.update('A1', data_a)` overwrites one remote row with one
in-memory row, keeping remote cells beyond the written row's extent. -/
def overwriteRow (old new : Row) : Row :=
  new ++ old.drop new.length

/-- `sheet_a.update('A1', data_a)` (line 81): overwrite the remote grid
cell-by-cell from A1, keeping remote rows/cells beyond the written grid's
extent (the write does not truncate). -/
def overwriteGrid : List Row → List Row → List Row
  | old, [] => old
  | old, n :: ns => overwriteRow (old.headD []) n :: overwriteGrid (old.drop 1) ns

/-- Clearing one cell's contents: an existing cell becomes empty text; a
cell beyond the row's extent stays absent. -/
def clearCell (row : Row) (j : Nat) : Row :=
  if j < row.length then row.set j (Cell.str "") else row

/-- `sheet_a.batch_clear` of the range L2:L-last-row (lines 94-95): clear column
index 11 of the rows with 0-based index 1 to `lastRow - 1`. -/
def clearColLAux (lastRow : Nat) : Nat → List Row → List Row
  | _, [] => []
  | i, r :: rs =>
    (if 1 ≤ i ∧ i < lastRow then clearCell r 11 else r) :: clearColLAux lastRow (i + 1) rs

/-- Clear column L from the second row through row `lastRow`. -/
def clearColL (grid : List Row) (lastRow : Nat) : List Row :=
  clearColLAux lastRow 0 grid

/-- Writing a value into a cell, creating the cell (and padding the row
with empty text) when it lies beyond the row's extent. -/
def setCell (row : Row) (j : Nat) (v : Cell) : Row :=
  (row ++ List.replicate (j + 1 - row.length) (Cell.str "")).set j v

/-- `sheet_a.update('L2', formula)` (line 99): write the formula string
into row index 1, column index 11, creating row 2 if absent. -/
def setFormulaL2 (grid : List Row) : List Row :=
  modifyAt (grid ++ List.replicate (2 - grid.length) ([] : Row)) 1
    (fun r => setCell r 11 (Cell.str formulaL2))

/-- The post-processing stage (lines 90-99): compute the total row count,
clear column L below the header when more than one row exists, then write
the formula into L2. -/
def postProcess (grid : List Row) : List Row :=
  setFormulaL2 (if 1 < grid.length then clearColL grid grid.length else grid)

/-- The cell of a grid at row `i`, column `j`; absent cells read as empty
text, as `get_all_values` reports them. -/
def cellAt (grid : List Row) (i j : Nat) : Cell :=
  ((grid.get? i).bind (fun r => r.get? j)).getD (Cell.str "")

/-- Success flags for each fallible external interaction of one run. -/
structure Env where
  authOk : Bool
  readOk : Bool
  updateOk : Bool
  appendOk : Bool
  clearOk : Bool
  formulaOk : Bool
  deleteOk : Bool
deriving DecidableEq

/-- The remote state touched by the script: the main document's grid and
the existence of the incoming document (whose grid is read-only input). -/
structure World where
  mainGrid : List Row
  incomingGrid : List Row
  incomingExists : Bool
deriving DecidableEq

/-- How one invocation of the script terminates. `mergeCrash` is the
uncaught IndexError escaping the merge loop; `done warned` is the normal
completion, with `warned = true` when deleting the incoming document
failed and was only logged (lines 112-113). -/
inductive Outcome where
  | authError
  | readError
  | mergeCrash
  | writeError
  | done (warned : Bool)
deriving DecidableEq

/-- The staged pipeline of `process_google_sheets_data`: authenticate,
load both tables, merge, write back (overwrite, then append when new rows
exist), clear column L when more than one row exists, write the formula,
and finally delete the incoming document best-effort. Each remote call is
gated on its `Env` flag; a failed call inside the write-back `try` block
aborts with `writeError` keeping the effects already applied. -/
def runScript (env : Env) (w : World) : Outcome × World :=
  if env.authOk = false then (Outcome.authError, w)
  else if env.readOk = false then (Outcome.readError, w)
  else
    match processMerge w.mainGrid w.incomingGrid with
    | none => (Outcome.mergeCrash, w)
    | some (dataA1, newRows) =>
      if env.updateOk = false then (Outcome.writeError, w)
      else
        let w1 : World := { w with mainGrid := overwriteGrid w.mainGrid dataA1 }
        if newRows ≠ [] ∧ env.appendOk = false then (Outcome.writeError, w1)
        else
          let w2 : World := { w1 with mainGrid := w1.mainGrid ++ newRows }
          let lastRow := w2.mainGrid.length
          if 1 < lastRow ∧ env.clearOk = false then (Outcome.writeError, w2)
          else
            let w3 : World :=
              if 1 < lastRow then { w2 with mainGrid := clearColL w2.mainGrid lastRow } else w2
            if env.formulaOk = false then (Outcome.writeError, w3)
            else
              let w4 : World := { w3 with mainGrid := setFormulaL2 w3.mainGrid }
              if env.deleteOk = false then (Outcome.done true, w4)
              else (Outcome.done false, { w4 with incomingExists := false })

theorem modifyAt_get_self (l : List α) (i : Nat) (f : α → α) :
    (modifyAt l i f).get? i = (l.get? i).map f := by
  induction l generalizing i with
  | nil => simp [modifyAt]
  | cons a as ih =>
    cases i with
    | zero => simp [modifyAt]
    | succ n => simpa [modifyAt] using ih n

theorem modifyAt_get_ne (l : List α) (i j : Nat) (f : α → α) (h : i ≠ j) :
    (modifyAt l i f).get? j = l.get? j := by
  induction l generalizing i j with
  | nil => simp [modifyAt]
  | cons a as ih =>
    cases i with
    | zero =>
      cases j with
      | zero => exact absurd rfl h
      | succ m => simp [modifyAt]
    | succ n =>
      cases j with
      | zero => simp [modifyAt]
      | succ m =>
        simpa [modifyAt] using ih n m (fun hnm => h (by omega))

theorem modifyAt_length (l : List α) (i : Nat) (f : α → α) :
    (modifyAt l i f).length = l.length := by
  induction l generalizing i with
  | nil => simp [modifyAt]
  | cons a as ih =>
    cases i with
    | zero => simp [modifyAt]
    | succ n => simpa [modifyAt] using ih n

theorem lastWith_sat (p : α → Bool) (l : List α) (a : α)
    (h : lastWith p l = some a) : a ∈ l ∧ p a = true := by
  induction l with
  | nil => simp [lastWith] at h
  | cons x xs ih =>
    simp only [lastWith] at h
    cases hx : lastWith p xs with
    | some b =>
      simp only [hx] at h
      cases h
      obtain ⟨hb1, hb2⟩ := ih hx
      exact ⟨List.mem_cons_of_mem _ hb1, hb2⟩
    | none =>
      rw [hx] at h
      by_cases hp : p x
      · simp [hp] at h
        cases h
        exact ⟨List.mem_cons_self _ _, hp⟩
      · simp [hp] at h

theorem lastWith_eq_none_iff (p : α → Bool) (l : List α) :
    lastWith p l = none ↔ ∀ a ∈ l, p a = false := by
  induction l with
  | nil => simp [lastWith]
  | cons x xs ih =>
    constructor
    · intro h a ha
      simp only [lastWith] at h
      cases hx : lastWith p xs with
      | some b => rw [hx] at h; cases h
      | none =>
        rw [hx] at h
        by_cases hp : p x
        · simp [hp] at h
        · rcases List.mem_cons.mp ha with rfl | hmem
          · exact Bool.eq_false_iff.mpr hp
          · exact (ih.mp hx) a hmem
    · intro h
      have hxs : lastWith p xs = none :=
        ih.mpr (fun a ha => h a (List.mem_cons_of_mem _ ha))
      simp [lastWith, hxs, h x (List.mem_cons_self _ _)]

theorem lastWith_isSome_of_mem (p : α → Bool) (l : List α) (a : α)
    (ha : a ∈ l) (hp : p a = true) : (lastWith p l).isSome := by
  cases h : lastWith p l with
  | some b => simp
  | none =>
    have := (lastWith_eq_none_iff p l).mp h a ha
    rw [hp] at this
    cases this

theorem lastWith_congr (p q : α → Bool) (l : List α)
    (h : ∀ a ∈ l, p a = q a) : lastWith p l = lastWith q l := by
  induction l with
  | nil => rfl
  | cons x xs ih =>
    have hxs : lastWith p xs = lastWith q xs :=
      ih (fun a ha => h a (List.mem_cons_of_mem _ ha))
    simp only [lastWith, hxs, h x (List.mem_cons_self _ _)]

theorem lastIdxWith_eq_none_iff (p : α → Bool) (l : List α) :
    lastIdxWith p l = none ↔ ∀ a ∈ l, p a = false := by
  induction l with
  | nil => simp [lastIdxWith]
  | cons x xs ih =>
    constructor
    · intro h a ha
      simp only [lastIdxWith] at h
      cases hx : lastIdxWith p xs with
      | some t => rw [hx] at h; cases h
      | none =>
        rw [hx] at h
        by_cases hp : p x
        · simp [hp] at h
        · rcases List.mem_cons.mp ha with rfl | hmem
          · exact Bool.eq_false_iff.mpr hp
          · exact (ih.mp hx) a hmem
    · intro h
      have hxs : lastIdxWith p xs = none :=
        ih.mpr (fun a ha => h a (List.mem_cons_of_mem _ ha))
      simp [lastIdxWith, hxs, h x (List.mem_cons_self _ _)]

theorem lastIdxWith_get (p : α → Bool) (l : List α) (t : Nat)
    (h : lastIdxWith p l = some t) :
    ∃ a, l.get? t = some a ∧ p a = true ∧
      ∀ t' a', t < t' → l.get? t' = some a' → p a' = false := by
  induction l generalizing t with
  | nil => simp [lastIdxWith] at h
  | cons x xs ih =>
    simp only [lastIdxWith] at h
    cases hx : lastIdxWith p xs with
    | some s =>
      rw [hx] at h
      cases h
      obtain ⟨a, ha1, ha2, ha3⟩ := ih s hx
      refine ⟨a, by simpa using ha1, ha2, ?_⟩
      intro t' a' ht' hget
      cases t' with
      | zero => omega
      | succ u => exact ha3 u a' (by omega) (by simpa using hget)
    | none =>
      rw [hx] at h
      by_cases hp : p x
      · simp only [hp, if_true] at h
        cases h
        refine ⟨x, rfl, hp, ?_⟩
        intro t' a' ht' hget
        cases t' with
        | zero => omega
        | succ u =>
          exact (lastIdxWith_eq_none_iff p xs).mp hx a' (List.get?_mem (by simpa using hget))
      · simp [hp] at h

theorem lastIdxWith_isSome (p : α → Bool) (l : List α) (t : Nat) (a : α)
    (h : l.get? t = some a) (hp : p a = true) : (lastIdxWith p l).isSome := by
  cases hl : lastIdxWith p l with
  | some s => simp
  | none =>
    have := (lastIdxWith_eq_none_iff p l).mp hl a (List.get?_mem h)
    rw [hp] at this
    cases this

theorem lastIdxWith_congr (p q : α → Bool) (l : List α)
    (h : ∀ a ∈ l, p a = q a) : lastIdxWith p l = lastIdxWith q l := by
  induction l with
  | nil => rfl
  | cons x xs ih =>
    have hxs : lastIdxWith p xs = lastIdxWith q xs :=
      ih (fun a ha => h a (List.mem_cons_of_mem _ ha))
    simp only [lastIdxWith, hxs, h x (List.mem_cons_self _ _)]

theorem lastIdxWith_append (p : α → Bool) (l1 l2 : List α) :
    lastIdxWith p (l1 ++ l2) =
      match lastIdxWith p l2 with
      | some t => some (l1.length + t)
      | none => lastIdxWith p l1 := by
  induction l1 with
  | nil => cases h : lastIdxWith p l2 <;> simp [h, lastIdxWith]
  | cons x xs ih =>
    cases h2 : lastIdxWith p l2 with
    | some t =>
      have ih' : lastIdxWith p (xs ++ l2) = some (xs.length + t) := by rw [ih, h2]
      simp only [List.cons_append, lastIdxWith, List.append_eq, ih', List.length_cons]
      congr 1
      omega
    | none =>
      have ih' : lastIdxWith p (xs ++ l2) = lastIdxWith p xs := by rw [ih, h2]
      simp only [List.cons_append, lastIdxWith, List.append_eq, ih']

theorem lastWith_eq_bind (p : α → Bool) (l : List α) :
    lastWith p l = (lastIdxWith p l).bind l.get? := by
  induction l with
  | nil => rfl
  | cons x xs ih =>
    cases hx : lastIdxWith p xs with
    | some t =>
      obtain ⟨a, ha, hpa, _⟩ := lastIdxWith_get p xs t hx
      have hws : lastWith p xs = some a := by
        rw [ih, hx]
        simpa using ha
      have hix : lastIdxWith p (x :: xs) = some (t + 1) := by
        simp only [lastIdxWith, hx]
      simp only [lastWith, hws, hix, Option.bind_eq_bind, Option.some_bind,
        List.get?_cons_succ, ha]
    | none =>
      have hws : lastWith p xs = none := by rw [ih, hx]; rfl
      have hix : lastIdxWith p (x :: xs) = if p x then some 0 else none := by
        simp only [lastIdxWith, hx]
      by_cases hp : p x
      · simp [lastWith, hws, hix, hp]
      · simp [lastWith, hws, hix, hp]

theorem lastWith_filterMap (g : α → Option β) (p : α → Bool) (q : β → Bool)
    (hpg : ∀ a b, g a = some b → q b = p a)
    (hps : ∀ a, p a = true → (g a).isSome)
    (l : List α) :
    lastWith q (l.filterMap g) = (lastWith p l).bind g := by
  induction l with
  | nil => rfl
  | cons x xs ih =>
    cases hlp : lastWith p xs with
    | some c =>
      have hgc : (g c).isSome := hps c (lastWith_sat p xs c hlp).2
      obtain ⟨d, hd⟩ := Option.isSome_iff_exists.mp hgc
      have hih : lastWith q (xs.filterMap g) = some d := by rw [ih, hlp]; simpa using hd
      cases hgx : g x with
      | some b =>
        simp only [List.filterMap_cons, hgx, lastWith, hih, hlp]
        simpa using hd.symm
      | none =>
        simp only [List.filterMap_cons, hgx, hih, lastWith, hlp]
        simpa using hd.symm
    | none =>
      have hih : lastWith q (xs.filterMap g) = none := by rw [ih, hlp]; rfl
      cases hgx : g x with
      | some b =>
        have hqb : q b = p x := hpg x b hgx
        simp only [List.filterMap_cons, hgx, lastWith, hih, hlp, hqb]
        by_cases hp : p x
        · simp [hp, hgx]
        · simp [hp]
      | none =>
        have hpx : p x = false := by
          cases hpx : p x
          · rfl
          · have := hps x hpx
            rw [hgx] at this
            cases this
        simp only [List.filterMap_cons, hgx, lastWith, hih, hlp, hpx]
        simp

theorem take_drop_length (rB : Row) (h : 5 ≤ rB.length) :
    ((rB.drop 1).take 4).length = 4 := by
  simp [List.length_take, List.length_drop]
  omega

theorem updateRow_drop4 (rB r : Row) (h : 5 ≤ rB.length) :
    (updateRow rB r).drop 4 = r.drop 4 := by
  unfold updateRow
  have h4 : ((rB.drop 1).take 4).length = 4 := take_drop_length rB h
  calc ((rB.drop 1).take 4 ++ r.drop 4).drop 4
      = ((rB.drop 1).take 4 ++ r.drop 4).drop ((rB.drop 1).take 4).length := by rw [h4]
    _ = r.drop 4 := List.drop_left _ _

theorem updateRow_updateRow (rB1 rB2 r : Row) (h : 5 ≤ rB2.length) :
    updateRow rB1 (updateRow rB2 r) = updateRow rB1 r := by
  show (rB1.drop 1).take 4 ++ (updateRow rB2 r).drop 4 = (rB1.drop 1).take 4 ++ r.drop 4
  rw [updateRow_drop4 rB2 r h]

theorem updateRow_get4 (rB r : Row) (h : 5 ≤ rB.length) :
    (updateRow rB r).get? 4 = r.get? 4 := by
  have h1 : (updateRow rB r).get? 4 = ((updateRow rB r).drop 4).get? 0 := by
    rw [List.get?_drop]
  have h2 : r.get? 4 = (r.drop 4).get? 0 := by rw [List.get?_drop]
  rw [h1, h2, updateRow_drop4 rB r h]

theorem updateRow_length (rB r : Row) (hB : 5 ≤ rB.length) (hr : 4 ≤ r.length) :
    (updateRow rB r).length = r.length := by
  unfold updateRow
  simp [List.length_take, List.length_drop]
  omega

theorem updateRow_newRowData (rB : Row) (h : 6 ≤ rB.length) :
    updateRow rB (newRowData rB) = newRowData rB := by
  show (rB.drop 1).take 4 ++ ((rB.drop 1).take 7 ++ [Cell.num 400]).drop 4 = newRowData rB
  have hlen : 4 ≤ ((rB.drop 1).take 7).length := by
    simp [List.length_take, List.length_drop]
    omega
  rw [List.drop_append_eq_append_drop]
  have h0 : 4 - ((rB.drop 1).take 7).length = 0 := by omega
  rw [h0, List.drop_zero]
  rw [← List.append_assoc]
  unfold newRowData
  congr 1
  have htt : ((rB.drop 1).take 7).take 4 = (rB.drop 1).take 4 := by
    rw [List.take_take]
    norm_num
  calc (rB.drop 1).take 4 ++ ((rB.drop 1).take 7).drop 4
      = ((rB.drop 1).take 7).take 4 ++ ((rB.drop 1).take 7).drop 4 := by rw [htt]
    _ = (rB.drop 1).take 7 := List.take_append_drop _ _

theorem newRowData_get4 (rB : Row) (h : 6 ≤ rB.length) :
    (newRowData rB).get? 4 = rB.get? 5 := by
  unfold newRowData
  have hlen : 4 < ((rB.drop 1).take 7).length := by
    simp [List.length_take, List.length_drop]
    omega
  rw [List.get?_append hlen, List.get?_take (by omega : (4:Nat) < 7), List.get?_drop]

theorem newRowData_length (rB : Row) (h : 6 ≤ rB.length) :
    5 ≤ (newRowData rB).length := by
  unfold newRowData
  simp [List.length_take, List.length_drop]
  omega

theorem buildLookupAux_isSome (i : Nat) (rows : List Row) :
    (buildLookupAux i rows).isSome ↔ ∀ r ∈ rows, (r.get? 4).isSome := by
  induction rows generalizing i with
  | nil => simp [buildLookupAux]
  | cons r rs ih =>
    cases h4 : r.get? 4 with
    | none =>
      simp only [buildLookupAux, h4, Option.isSome_none]
      constructor
      · intro h
        exact Bool.noConfusion h
      · intro h
        have h2 := h r (List.mem_cons_self _ _)
        rw [h4] at h2
        exact Bool.noConfusion h2
    | some k =>
      simp only [buildLookupAux, h4, Option.isSome_map']
      constructor
      · intro h a ha
        rcases List.mem_cons.mp ha with rfl | hmem
        · rw [h4]
          rfl
        · exact ((ih (i + 1)).mp h) a hmem
      · intro h
        exact (ih (i + 1)).mpr (fun a ha => h a (List.mem_cons_of_mem _ ha))

theorem buildLookupAux_dictFind (rows : List Row) (i : Nat) (ps : List (Cell × Nat))
    (h : buildLookupAux i rows = some ps) (k : Cell) :
    dictFind ps k =
      (lastIdxWith (fun r => r.get? 4 == some k) rows).map (fun t => i + t) := by
  induction rows generalizing i ps with
  | nil =>
    cases h
    simp [dictFind, lastIdxWith]
  | cons r rs ih =>
    cases h4 : r.get? 4 with
    | none =>
      simp only [buildLookupAux, h4] at h
      exact Option.noConfusion h
    | some k0 =>
      simp only [buildLookupAux, h4] at h
      cases hb : buildLookupAux (i + 1) rs with
      | none =>
        rw [hb] at h
        exact Option.noConfusion h
      | some ps' =>
        rw [hb] at h
        simp only [Option.map_some'] at h
        cases h
        have ihd := ih (i + 1) ps' hb
        simp only [dictFind, ihd]
        cases hl : lastIdxWith (fun r => r.get? 4 == some k) rs with
        | some t =>
          simp only [lastIdxWith, hl, Option.map_some']
          congr 1
          omega
        | none =>
          simp only [lastIdxWith, hl, Option.map_none']
          have h4x : r[4]? = some k0 := by
            rw [← List.get?_eq_getElem?]
            exact h4
          by_cases hk : k0 = k
          · subst hk
            have hkk : (r.get? 4 == some k0) = true := by
              rw [h4]
              simp
            simp [hkk]
            exact h4x
          · have hkk : (r[4]? == some k) = false := by
              rw [h4x]
              simp
              exact hk
            simp [hkk, hk]

theorem mergeStep_none (lookup : List (Cell × Nat)) (st : List Row × List Row)
    (rB : Row) (h5 : rB[5]? = none) : mergeStep lookup st rB = none := by
  simp [mergeStep, h5]

theorem mergeStep_skip (lookup : List (Cell × Nat)) (st : List Row × List Row)
    (rB : Row) (k : Cell) (h5 : rB[5]? = some k) (hf : k.falsy = true) :
    mergeStep lookup st rB = some st := by
  simp [mergeStep, h5, hf]

theorem mergeStep_update (lookup : List (Cell × Nat)) (st : List Row × List Row)
    (rB : Row) (k : Cell) (j : Nat) (h5 : rB[5]? = some k) (hf : k.falsy = false)
    (hd : dictFind lookup k = some j) :
    mergeStep lookup st rB = some (modifyAt st.1 j (updateRow rB), st.2) := by
  simp [mergeStep, h5, hf, hd]

theorem mergeStep_append (lookup : List (Cell × Nat)) (st : List Row × List Row)
    (rB : Row) (k : Cell) (h5 : rB[5]? = some k) (hf : k.falsy = false)
    (hd : dictFind lookup k = none) :
    mergeStep lookup st rB = some (st.1, st.2 ++ [newRowData rB]) := by
  simp [mergeStep, h5, hf, hd]

theorem mergeLoop_cons (lookup : List (Cell × Nat)) (st st1 : List Row × List Row)
    (rB : Row) (rest : List Row) (h : mergeStep lookup st rB = some st1) :
    mergeLoop lookup st (rB :: rest) = mergeLoop lookup st1 rest := by
  simp [mergeLoop, h]

theorem mergeLoop_cons_none (lookup : List (Cell × Nat)) (st : List Row × List Row)
    (rB : Row) (rest : List Row) (h : mergeStep lookup st rB = none) :
    mergeLoop lookup st (rB :: rest) = none := by
  simp [mergeLoop, h]

theorem row_length_of_key (rB : Row) (k : Cell) (h5 : rB[5]? = some k) :
    6 ≤ rB.length := by
  obtain ⟨hlt, _⟩ := List.getElem?_eq_some.mp h5
  omega

theorem mergeLoop_isSome (lookup : List (Cell × Nat)) (rows : List Row)
    (h : ∀ r ∈ rows, r[5]?.isSome) (st : List Row × List Row) :
    (mergeLoop lookup st rows).isSome := by
  induction rows generalizing st with
  | nil => simp [mergeLoop]
  | cons r rest ih =>
    obtain ⟨k, hk⟩ := Option.isSome_iff_exists.mp (h r (List.mem_cons_self _ _))
    have hrest : ∀ x ∈ rest, x[5]?.isSome :=
      fun x hx => h x (List.mem_cons_of_mem _ hx)
    cases hf : k.falsy with
    | true =>
      rw [mergeLoop_cons _ _ _ _ _ (mergeStep_skip _ _ _ _ hk hf)]
      exact ih hrest _
    | false =>
      cases hd : dictFind lookup k with
      | some j =>
        rw [mergeLoop_cons _ _ _ _ _ (mergeStep_update _ _ _ _ _ hk hf hd)]
        exact ih hrest _
      | none =>
        rw [mergeLoop_cons _ _ _ _ _ (mergeStep_append _ _ _ _ hk hf hd)]
        exact ih hrest _

theorem mergeLoop_keys (lookup : List (Cell × Nat)) (rows : List Row)
    (st st' : List Row × List Row) (h : mergeLoop lookup st rows = some st') :
    ∀ r ∈ rows, r[5]?.isSome := by
  induction rows generalizing st with
  | nil => intro r hr; cases hr
  | cons r rest ih =>
    intro x hx
    cases hs : mergeStep lookup st r with
    | none =>
      rw [mergeLoop_cons_none _ _ _ _ hs] at h
      exact Option.noConfusion h
    | some st1 =>
      rw [mergeLoop_cons _ _ _ _ _ hs] at h
      rcases List.mem_cons.mp hx with rfl | hmem
      · cases h5 : x[5]? with
        | none => rw [mergeStep_none _ _ _ h5] at hs; exact Option.noConfusion hs
        | some k => simp
      · exact ih st1 h x hmem

theorem mergeLoop_none_of_mem (lookup : List (Cell × Nat)) (rows : List Row)
    (rB : Row) (hmem : rB ∈ rows) (h5 : rB[5]? = none)
    (st : List Row × List Row) : mergeLoop lookup st rows = none := by
  induction rows generalizing st with
  | nil => cases hmem
  | cons r rest ih =>
    rcases List.mem_cons.mp hmem with rfl | hmem'
    · exact mergeLoop_cons_none _ _ _ _ (mergeStep_none _ _ _ h5)
    · cases hs : mergeStep lookup st r with
      | none => exact mergeLoop_cons_none _ _ _ _ hs
      | some st1 =>
        rw [mergeLoop_cons _ _ _ _ _ hs]
        exact ih hmem' st1

theorem mergeLoop_newRows (lookup : List (Cell × Nat)) (rows : List Row)
    (a ns a' ns' : List Row)
    (h : mergeLoop lookup (a, ns) rows = some (a', ns')) :
    ns' = ns ++ (rows.filter (isAppendRow lookup)).map newRowData := by
  induction rows generalizing a ns with
  | nil =>
    simp only [mergeLoop, Option.some_inj, Prod.mk.injEq] at h
    simp [h.2]
  | cons r rest ih =>
    cases h5 : r[5]? with
    | none =>
      rw [mergeLoop_cons_none _ _ _ _ (mergeStep_none _ _ _ h5)] at h
      exact Option.noConfusion h
    | some k =>
      cases hf : k.falsy with
      | true =>
        rw [mergeLoop_cons _ _ _ _ _ (mergeStep_skip _ _ _ _ h5 hf)] at h
        have hfl : isAppendRow lookup r = false := by simp [isAppendRow, h5, hf]
        rw [List.filter_cons, hfl]
        simpa using ih _ _ h
      | false =>
        cases hd : dictFind lookup k with
        | some j =>
          rw [mergeLoop_cons _ _ _ _ _ (mergeStep_update _ _ _ _ _ h5 hf hd)] at h
          have hfl : isAppendRow lookup r = false := by simp [isAppendRow, h5, hf, hd]
          rw [List.filter_cons, hfl]
          simpa using ih _ _ h
        | none =>
          rw [mergeLoop_cons _ _ _ _ _ (mergeStep_append _ _ _ _ h5 hf hd)] at h
          have hfl : isAppendRow lookup r = true := by simp [isAppendRow, h5, hf, hd]
          rw [List.filter_cons, hfl]
          have hres := ih _ _ h
          rw [hres, List.append_assoc]
          simp

theorem mergeLoop_get (lookup : List (Cell × Nat)) (rows : List Row)
    (a ns a' ns' : List Row)
    (h : mergeLoop lookup (a, ns) rows = some (a', ns')) (j : Nat) :
    a'.get? j =
      match lastWith (rowMatchesIdx lookup j) rows with
      | none => a.get? j
      | some rB => (a.get? j).map (updateRow rB) := by
  induction rows generalizing a ns with
  | nil =>
    simp only [mergeLoop, Option.some_inj, Prod.mk.injEq] at h
    rw [← h.1]
    simp [lastWith]
  | cons r rest ih =>
    cases h5 : r[5]? with
    | none =>
      rw [mergeLoop_cons_none _ _ _ _ (mergeStep_none _ _ _ h5)] at h
      exact Option.noConfusion h
    | some k =>
      cases hf : k.falsy with
      | true =>
        rw [mergeLoop_cons _ _ _ _ _ (mergeStep_skip _ _ _ _ h5 hf)] at h
        have hm : rowMatchesIdx lookup j r = false := by simp [rowMatchesIdx, h5, hf]
        rw [ih _ _ h]
        cases hlw : lastWith (rowMatchesIdx lookup j) rest with
        | some b => simp only [lastWith, hlw]
        | none => simp only [lastWith, hlw, hm, Bool.false_eq_true, if_false]
      | false =>
        cases hd : dictFind lookup k with
        | none =>
          rw [mergeLoop_cons _ _ _ _ _ (mergeStep_append _ _ _ _ h5 hf hd)] at h
          have hm : rowMatchesIdx lookup j r = false := by
            simp [rowMatchesIdx, h5, hf, hd]
          rw [ih _ _ h]
          cases hlw : lastWith (rowMatchesIdx lookup j) rest with
          | some b => simp only [lastWith, hlw]
          | none => simp only [lastWith, hlw, hm, Bool.false_eq_true, if_false]
        | some jj =>
          rw [mergeLoop_cons _ _ _ _ _ (mergeStep_update _ _ _ _ _ h5 hf hd)] at h
          have hrec := ih _ _ h
          have hlen : 5 ≤ r.length := by
            have := row_length_of_key r k h5
            omega
          by_cases hj : jj = j
          · subst hj
            have hm : rowMatchesIdx lookup jj r = true := by
              simp [rowMatchesIdx, h5, hf, hd]
            rw [hrec]
            cases hlw : lastWith (rowMatchesIdx lookup jj) rest with
            | none =>
              simp only [lastWith, hlw, hm, if_true]
              exact modifyAt_get_self a jj (updateRow r)
            | some b =>
              simp only [lastWith, hlw]
              rw [modifyAt_get_self]
              cases ha : a.get? jj with
              | none => rfl
              | some x =>
                simp only [Option.map_some']
                rw [updateRow_updateRow b r x hlen]
          · have hm : rowMatchesIdx lookup j r = false := by
              simp [rowMatchesIdx, h5, hf, hd, hj]
            rw [hrec]
            cases hlw : lastWith (rowMatchesIdx lookup j) rest with
            | some b =>
              simp only [lastWith, hlw]
              rw [modifyAt_get_ne _ _ _ _ hj]
            | none =>
              simp only [lastWith, hlw, hm, Bool.false_eq_true, if_false]
              exact modifyAt_get_ne _ _ _ _ hj

theorem mergeLoop_main_length (lookup : List (Cell × Nat)) (rows : List Row)
    (a ns a' ns' : List Row)
    (h : mergeLoop lookup (a, ns) rows = some (a', ns')) :
    a'.length = a.length := by
  induction rows generalizing a ns with
  | nil =>
    simp only [mergeLoop, Option.some_inj, Prod.mk.injEq] at h
    rw [h.1]
  | cons r rest ih =>
    cases hs : mergeStep lookup (a, ns) r with
    | none =>
      rw [mergeLoop_cons_none _ _ _ _ hs] at h
      exact Option.noConfusion h
    | some st1 =>
      rw [mergeLoop_cons _ _ _ _ _ hs] at h
      cases h5 : r[5]? with
      | none => rw [mergeStep_none _ _ _ h5] at hs; exact Option.noConfusion hs
      | some k =>
        cases hf : k.falsy with
        | true =>
          rw [mergeStep_skip _ _ _ _ h5 hf] at hs
          cases hs
          exact ih _ _ h
        | false =>
          cases hd : dictFind lookup k with
          | some j =>
            rw [mergeStep_update _ _ _ _ _ h5 hf hd] at hs
            cases hs
            rw [ih _ _ h]
            exact modifyAt_length a j (updateRow r)
          | none =>
            rw [mergeStep_append _ _ _ _ h5 hf hd] at hs
            cases hs
            exact ih _ _ h

theorem processMerge_eq (dataA dataB dataA1 ns1 : List Row)
    (h : processMerge dataA dataB = some (dataA1, ns1)) :
    ∃ lookup, buildLookup dataA = some lookup ∧
      mergeLoop lookup (dataA, []) (dataB.drop 1) = some (dataA1, ns1) := by
  cases hb : buildLookup dataA with
  | none =>
    unfold processMerge at h
    rw [hb] at h
    exact Option.noConfusion h
  | some lookup =>
    refine ⟨lookup, rfl, ?_⟩
    unfold processMerge at h
    rw [hb] at h
    exact h

theorem processMerge_isSome (dataA dataB : List Row)
    (hA : ∀ r ∈ dataA.drop 1, r[4]?.isSome)
    (hB : ∀ r ∈ dataB.drop 1, r[5]?.isSome) :
    (processMerge dataA dataB).isSome := by
  have hA' : ∀ r ∈ dataA.drop 1, (r.get? 4).isSome := by
    intro r hr
    rw [List.get?_eq_getElem?]
    exact hA r hr
  have hb : (buildLookup dataA).isSome := (buildLookupAux_isSome 1 (dataA.drop 1)).mpr hA'
  obtain ⟨lookup, hl⟩ := Option.isSome_iff_exists.mp hb
  unfold processMerge
  rw [hl]
  exact mergeLoop_isSome lookup (dataB.drop 1) hB (dataA, [])

theorem mergeLoop_skip_insert (lookup : List (Cell × Nat)) (l1 l2 : List Row)
    (rB : Row) (k : Cell) (h5 : rB[5]? = some k) (hf : k.falsy = true)
    (st : List Row × List Row) :
    mergeLoop lookup st (l1 ++ rB :: l2) = mergeLoop lookup st (l1 ++ l2) := by
  induction l1 generalizing st with
  | nil =>
    simp only [List.nil_append]
    rw [mergeLoop_cons _ _ _ _ _ (mergeStep_skip _ _ _ _ h5 hf)]
  | cons x xs ih =>
    cases hs : mergeStep lookup st x with
    | none =>
      rw [List.cons_append, List.cons_append, mergeLoop_cons_none _ _ _ _ hs,
        mergeLoop_cons_none _ _ _ _ hs]
    | some st1 =>
      rw [List.cons_append, List.cons_append, mergeLoop_cons _ _ _ _ _ hs,
        mergeLoop_cons _ _ _ _ _ hs]
      exact ih st1

/-- Claim C3: an incoming data row whose key field (index 5) is the empty
string is skipped entirely: the loop step on it returns the state
unchanged (no update of the main table, no collected row), and inserting
such a row anywhere among the incoming data rows leaves the whole merge
result unchanged. -/
theorem C3_empty_key_no_effect (lookup : List (Cell × Nat))
    (st : List Row × List Row) (dataA : List Row) (hB : Row)
    (l1 l2 : List Row) (rB : Row)
    (h5 : rB.get? 5 = some (Cell.str "")) :
    mergeStep lookup st rB = some st ∧
    processMerge dataA (hB :: (l1 ++ rB :: l2)) = processMerge dataA (hB :: (l1 ++ l2))
    := by
  rw [List.get?_eq_getElem?] at h5
  have hf : (Cell.str "").falsy = true := rfl
  refine ⟨mergeStep_skip _ _ _ _ h5 hf, ?_⟩
  unfold processMerge
  cases hb : buildLookup dataA with
  | none => rfl
  | some lookup2 =>
    simp only [List.drop_succ_cons, List.drop_zero]
    exact mergeLoop_skip_insert lookup2 l1 l2 rB _ h5 hf _

theorem C3_empty_key_no_effect_witness :
    ([Cell.str "x0", Cell.str "a", Cell.str "b", Cell.str "c", Cell.str "d",
      Cell.str "", Cell.str "e"] : Row).get? 5 = some (Cell.str "") ∧
    mergeStep [] ([], []) [Cell.str "x0", Cell.str "a", Cell.str "b", Cell.str "c",
      Cell.str "d", Cell.str "", Cell.str "e"] = some ([], []) ∧
    processMerge [[Cell.str "h"]]
      [[Cell.str "hb"], [Cell.str "x0", Cell.str "a", Cell.str "b", Cell.str "c",
        Cell.str "d", Cell.str "", Cell.str "e"]] =
    processMerge [[Cell.str "h"]] [[Cell.str "hb"]] := by
  refine ⟨by decide, ?_, ?_⟩
  · exact (C3_empty_key_no_effect [] ([], []) [[Cell.str "h"]] [Cell.str "hb"] [] []
      _ (by decide)).1
  · exact (C3_empty_key_no_effect [] ([], []) [[Cell.str "h"]] [Cell.str "hb"] [] []
      _ (by decide)).2

/-- Claim C9: when loading either table fails (the read flag is down), the
run aborts reporting the read error and the remote world is completely
unchanged: no merge result is produced and no overwrite, append, clear,
formula write or deletion happens. -/
theorem C9_read_failure_aborts (env : Env) (w : World)
    (hAuth : env.authOk = true) (hRead : env.readOk = false) :
    runScript env w = (Outcome.readError, w) := by
  simp [runScript, hAuth, hRead]

theorem C9_read_failure_aborts_witness :
    runScript ⟨true, false, true, true, true, true, true⟩
      ⟨[[Cell.str "h"]], [[Cell.str "hb"]], true⟩ =
    (Outcome.readError, ⟨[[Cell.str "h"]], [[Cell.str "hb"]], true⟩) :=
  C9_read_failure_aborts ⟨true, false, true, true, true, true, true⟩
    ⟨[[Cell.str "h"]], [[Cell.str "hb"]], true⟩ rfl rfl

/-- Claim C10: a failure while deleting the incoming document is
non-fatal: the run completes reporting only a warning (`done true`), the
main document holds exactly what a fully successful run would hold (all
merge write-back and post-processing effects intact), and only the
deletion of the incoming document is missing. -/
theorem C10_cleanup_failure_nonfatal (env : Env) (w : World)
    (res : List Row × List Row)
    (hAuth : env.authOk = true) (hRead : env.readOk = true)
    (hUpd : env.updateOk = true) (hApp : env.appendOk = true)
    (hClr : env.clearOk = true) (hFor : env.formulaOk = true)
    (hDel : env.deleteOk = false)
    (hm : processMerge w.mainGrid w.incomingGrid = some res) :
    (runScript env w).1 = Outcome.done true ∧
    (runScript env w).2.mainGrid = (runScript { env with deleteOk := true } w).2.mainGrid ∧
    (runScript env w).2.incomingExists = w.incomingExists ∧
    (runScript { env with deleteOk := true } w).1 = Outcome.done false := by
  obtain ⟨dataA1, ns1⟩ := res
  simp [runScript, hAuth, hRead, hUpd, hApp, hClr, hFor, hDel, hm, apply_ite]
  split <;> (intro h2; omega)

theorem C10_cleanup_failure_nonfatal_witness :
    processMerge [[Cell.str "h"], [Cell.str "v1", Cell.str "v2", Cell.str "v3",
        Cell.str "v4", Cell.str "K1"]]
      [[Cell.str "hb"], [Cell.str "x0", Cell.str "u1", Cell.str "u2", Cell.str "u3",
        Cell.str "u4", Cell.str "K1", Cell.str "x6", Cell.str "x7"]] =
      some ([[Cell.str "h"], [Cell.str "u1", Cell.str "u2", Cell.str "u3",
        Cell.str "u4", Cell.str "K1"]], []) ∧
    (runScript ⟨true, true, true, true, true, true, false⟩
      ⟨[[Cell.str "h"], [Cell.str "v1", Cell.str "v2", Cell.str "v3", Cell.str "v4",
        Cell.str "K1"]],
       [[Cell.str "hb"], [Cell.str "x0", Cell.str "u1", Cell.str "u2", Cell.str "u3",
        Cell.str "u4", Cell.str "K1", Cell.str "x6", Cell.str "x7"]], true⟩).1 =
      Outcome.done true ∧
    (runScript ⟨true, true, true, true, true, true, false⟩
      ⟨[[Cell.str "h"], [Cell.str "v1", Cell.str "v2", Cell.str "v3", Cell.str "v4",
        Cell.str "K1"]],
       [[Cell.str "hb"], [Cell.str "x0", Cell.str "u1", Cell.str "u2", Cell.str "u3",
        Cell.str "u4", Cell.str "K1", Cell.str "x6", Cell.str "x7"]], true⟩).2.incomingExists =
      true := by
  have H := C10_cleanup_failure_nonfatal ⟨true, true, true, true, true, true, false⟩
    ⟨[[Cell.str "h"], [Cell.str "v1", Cell.str "v2", Cell.str "v3", Cell.str "v4",
      Cell.str "K1"]],
     [[Cell.str "hb"], [Cell.str "x0", Cell.str "u1", Cell.str "u2", Cell.str "u3",
      Cell.str "u4", Cell.str "K1", Cell.str "x6", Cell.str "x7"]], true⟩
    ([[Cell.str "h"], [Cell.str "u1", Cell.str "u2", Cell.str "u3", Cell.str "u4",
      Cell.str "K1"]], [])
    rfl rfl rfl rfl rfl rfl rfl (by decide)
  exact ⟨by decide, H.1, H.2.2.1⟩

/-- Claim C4 (amended): a malformed incoming data row raises the fatal
out-of-range condition only when it is too short for the key access
`row_b[5]` itself, i.e. has fewer than 6 fields: then the merge evaluates
to no result and the run ends in `mergeCrash` — the uncaught exception,
not an error handled at a stage boundary — with the remote world
untouched. Rows long enough for the key access never raise on the span
extractions, which are truncating slices (see C5). -/
theorem C4_short_key_row_crashes (env : Env) (w : World) (rB : Row)
    (hAuth : env.authOk = true) (hRead : env.readOk = true)
    (hmem : rB ∈ w.incomingGrid.drop 1) (hlen : rB.length < 6) :
    processMerge w.mainGrid w.incomingGrid = none ∧
    runScript env w = (Outcome.mergeCrash, w) := by
  have h5 : rB[5]? = none := by
    rw [List.getElem?_eq_none_iff]
    omega
  have hpm : processMerge w.mainGrid w.incomingGrid = none := by
    unfold processMerge
    cases hb : buildLookup w.mainGrid with
    | none => rfl
    | some lookup => exact mergeLoop_none_of_mem lookup _ rB hmem h5 _
  refine ⟨hpm, ?_⟩
  simp [runScript, hAuth, hRead, hpm]

theorem C4_short_key_row_crashes_witness :
    ([Cell.str "x0", Cell.str "a", Cell.str "b", Cell.str "c", Cell.str "d"] : Row)
      ∈ ([[Cell.str "hb"], [Cell.str "x0", Cell.str "a", Cell.str "b", Cell.str "c",
          Cell.str "d"]] : List Row).drop 1 ∧
    ([Cell.str "x0", Cell.str "a", Cell.str "b", Cell.str "c", Cell.str "d"] : Row).length < 6 ∧
    runScript ⟨true, true, true, true, true, true, true⟩
      ⟨[[Cell.str "h"], [Cell.str "v1", Cell.str "v2", Cell.str "v3", Cell.str "v4",
        Cell.str "K1"]],
       [[Cell.str "hb"], [Cell.str "x0", Cell.str "a", Cell.str "b", Cell.str "c",
        Cell.str "d"]], true⟩ =
      (Outcome.mergeCrash,
       ⟨[[Cell.str "h"], [Cell.str "v1", Cell.str "v2", Cell.str "v3", Cell.str "v4",
        Cell.str "K1"]],
       [[Cell.str "hb"], [Cell.str "x0", Cell.str "a", Cell.str "b", Cell.str "c",
        Cell.str "d"]], true⟩) := by
  have H := C4_short_key_row_crashes ⟨true, true, true, true, true, true, true⟩
    ⟨[[Cell.str "h"], [Cell.str "v1", Cell.str "v2", Cell.str "v3", Cell.str "v4",
      Cell.str "K1"]],
     [[Cell.str "hb"], [Cell.str "x0", Cell.str "a", Cell.str "b", Cell.str "c",
      Cell.str "d"]], true⟩
    [Cell.str "x0", Cell.str "a", Cell.str "b", Cell.str "c", Cell.str "d"]
    rfl rfl (by decide) (by decide)
  exact ⟨by decide, by decide, H.2⟩

/-- Claim C4 as stated is false at this input: the incoming data row has
only 7 fields — too short for the append span (indices 1-7) — yet
processing it does not fail with an out-of-range error: the slice
truncates and the merge produces a result. -/
theorem C4_counterexample :
    ([Cell.str "x0", Cell.str "a", Cell.str "b", Cell.str "c", Cell.str "d",
       Cell.str "K9", Cell.str "e"] : Row).length < 8 ∧
    processMerge [[Cell.str "h"], [Cell.str "v1", Cell.str "v2", Cell.str "v3",
        Cell.str "v4", Cell.str "K1"]]
      [[Cell.str "hb"], [Cell.str "x0", Cell.str "a", Cell.str "b", Cell.str "c",
        Cell.str "d", Cell.str "K9", Cell.str "e"]] ≠ none := by
  exact ⟨by decide, by decide⟩

theorem clearColLAux_length (lastRow : Nat) (rows : List Row) (i0 : Nat) :
    (clearColLAux lastRow i0 rows).length = rows.length := by
  induction rows generalizing i0 with
  | nil => rfl
  | cons r rs ih => simp [clearColLAux, ih]

theorem clearColLAux_get (lastRow : Nat) (rows : List Row) (i0 t : Nat) :
    (clearColLAux lastRow i0 rows)[t]? =
      (rows[t]?).map (fun r => if 1 ≤ i0 + t ∧ i0 + t < lastRow then clearCell r 11 else r) := by
  induction rows generalizing i0 t with
  | nil => simp [clearColLAux]
  | cons r rs ih =>
    cases t with
    | zero => simp [clearColLAux]
    | succ u =>
      have harith : i0 + 1 + u = i0 + (u + 1) := by omega
      simp only [clearColLAux, List.getElem?_cons_succ, ih (i0 + 1) u, harith]

theorem clearColL_get (grid : List Row) (lastRow t : Nat) :
    (clearColL grid lastRow).get? t =
      (grid.get? t).map (fun r => if 1 ≤ t ∧ t < lastRow then clearCell r 11 else r) := by
  unfold clearColL
  rw [List.get?_eq_getElem?, List.get?_eq_getElem?, clearColLAux_get]
  simp

theorem clearCell_read (r : Row) :
    ((clearCell r 11).get? 11).getD (Cell.str "") = Cell.str "" := by
  unfold clearCell
  by_cases h : 11 < r.length
  · rw [if_pos h, List.get?_eq_getElem?, List.getElem?_set_self (by simpa using h)]
    rfl
  · rw [if_neg h]
    have hn : r.get? 11 = none := List.get?_eq_none.mpr (by omega)
    rw [hn]
    rfl

theorem setCell_read (r : Row) (v : Cell) :
    ((setCell r 11 v).get? 11).getD (Cell.str "") = v := by
  unfold setCell
  have hlen : 11 < (r ++ List.replicate (11 + 1 - r.length) (Cell.str "")).length := by
    simp [List.length_append, List.length_replicate]
    omega
  rw [List.get?_eq_getElem?, List.getElem?_set_self hlen]
  rfl


/-- Claim C8: with N the total row count of the main grid after
write-back, when N > 1 the post-processing stage clears the 12th column
(index 11) of every row from the second through the N-th, then writes the
fixed ARRAYFORMULA string into cell L2: afterwards that column reads the
formula string in row 2 and empty in rows 3..N; and on the all-success
path the script's final main grid is exactly `postProcess` of the
written-back grid (overwrite of the merged rows plus the appended rows). -/
theorem C8_postprocess_column_L (grid : List Row) (h : 1 < grid.length) :
    (∀ i, 2 ≤ i → i < grid.length → cellAt (postProcess grid) i 11 = Cell.str "") ∧
    cellAt (postProcess grid) 1 11 = Cell.str formulaL2 ∧
    (∀ (env : Env) (w : World) (res : List Row × List Row),
      env.authOk = true → env.readOk = true → env.updateOk = true →
      env.appendOk = true → env.clearOk = true → env.formulaOk = true →
      processMerge w.mainGrid w.incomingGrid = some res →
      (runScript env w).2.mainGrid = postProcess (overwriteGrid w.mainGrid res.1 ++ res.2)) := by
  have hG : (clearColL grid grid.length).length = grid.length :=
    clearColLAux_length grid.length grid 0
  have hpp : postProcess grid = modifyAt (clearColL grid grid.length) 1
      (fun r => setCell r 11 (Cell.str formulaL2)) := by
    unfold postProcess
    rw [if_pos h]
    unfold setFormulaL2
    have h20 : 2 - (clearColL grid grid.length).length = 0 := by omega
    rw [h20, List.replicate_zero, List.append_nil]
  refine ⟨?_, ?_, ?_⟩
  · intro i h2 hiN
    unfold cellAt
    rw [hpp, modifyAt_get_ne _ 1 i _ (by omega), clearColL_get]
    have hr : grid.get? i = some grid[i] := by
      rw [List.get?_eq_getElem?]
      exact List.getElem?_eq_getElem hiN
    rw [hr]
    simp only [Option.map_some']
    rw [if_pos (show 1 ≤ i ∧ i < grid.length by omega)]
    simp only [Option.some_bind]
    exact clearCell_read _
  · unfold cellAt
    rw [hpp, modifyAt_get_self, clearColL_get]
    have hr : grid.get? 1 = some grid[1] := by
      rw [List.get?_eq_getElem?]
      exact List.getElem?_eq_getElem h
    rw [hr]
    simp only [Option.map_some']
    rw [if_pos (show 1 ≤ 1 ∧ 1 < grid.length from ⟨Nat.le_refl 1, h⟩)]
    simp only [Option.some_bind]
    exact setCell_read _ _
  · intro env w res hAuth hRead hUpd hApp hClr hFor hm
    obtain ⟨dataA1, ns1⟩ := res
    cases hDel : env.deleteOk with
    | true =>
      simp [runScript, hAuth, hRead, hUpd, hApp, hClr, hFor, hDel, hm, apply_ite,
        postProcess, List.length_append]
      split <;> (intro h2; omega)
    | false =>
      simp [runScript, hAuth, hRead, hUpd, hApp, hClr, hFor, hDel, hm, apply_ite,
        postProcess, List.length_append]
      split <;> (intro h2; omega)

theorem C8_postprocess_column_L_witness :
    1 < ([[Cell.str "h"], [Cell.str "a"], [Cell.str "b"]] : List Row).length ∧
    cellAt (postProcess [[Cell.str "h"], [Cell.str "a"], [Cell.str "b"]]) 2 11 =
      Cell.str "" ∧
    cellAt (postProcess [[Cell.str "h"], [Cell.str "a"], [Cell.str "b"]]) 1 11 =
      Cell.str formulaL2 := by
  have H := C8_postprocess_column_L [[Cell.str "h"], [Cell.str "a"], [Cell.str "b"]]
    (by decide)
  exact ⟨by decide, H.1 2 (by decide) (by decide), H.2.1⟩

theorem isAppendRow_eq_isNewAccountRow (dataA : List Row) (lookup : List (Cell × Nat))
    (hb : buildLookup dataA = some lookup) (rB : Row) :
    isAppendRow lookup rB = isNewAccountRow dataA rB := by
  unfold isAppendRow isNewAccountRow
  cases h5 : rB.get? 5 with
  | none => rfl
  | some k =>
    show (!k.falsy && (dictFind lookup k).isNone) = (!k.falsy && !keyInMain dataA k)
    have hd := buildLookupAux_dictFind (dataA.drop 1) 1 lookup hb k
    rw [hd]
    cases hl : lastIdxWith (fun r => r.get? 4 == some k) (dataA.drop 1) with
    | some tt =>
      obtain ⟨r, hr, hp, _⟩ := lastIdxWith_get _ _ _ hl
      have hkim : keyInMain dataA k = true := by
        unfold keyInMain
        rw [List.any_eq_true]
        exact ⟨r, List.get?_mem hr, hp⟩
      rw [hkim]
      simp
    | none =>
      have hkim : keyInMain dataA k = false := by
        unfold keyInMain
        rw [List.any_eq_false]
        intro x hx
        have hfx := (lastIdxWith_eq_none_iff _ _).mp hl x hx
        simp only [hfx]
        exact Bool.false_ne_true
      rw [hkim]
      simp

theorem clearCell_id (r : Row) (h : r.length ≤ 11) : clearCell r 11 = r :=
  if_neg (by omega)

theorem newRowData_length_le (rB : Row) : (newRowData rB).length ≤ 8 := by
  unfold newRowData
  simp [List.length_take, List.length_drop]

theorem postProcess_eq_modifyAt (grid : List Row) (h : 1 < grid.length) :
    postProcess grid = modifyAt (clearColL grid grid.length) 1
      (fun r => setCell r 11 (Cell.str formulaL2)) := by
  have hG : (clearColL grid grid.length).length = grid.length :=
    clearColLAux_length grid.length grid 0
  unfold postProcess
  rw [if_pos h]
  unfold setFormulaL2
  have h20 : 2 - (clearColL grid grid.length).length = 0 := by omega
  rw [h20, List.replicate_zero, List.append_nil]

theorem runScript_mainGrid (env : Env) (w : World) (dataA1 ns1 : List Row)
    (hAuth : env.authOk = true) (hRead : env.readOk = true)
    (hUpd : env.updateOk = true) (hApp : env.appendOk = true)
    (hClr : env.clearOk = true) (hFor : env.formulaOk = true)
    (hm : processMerge w.mainGrid w.incomingGrid = some (dataA1, ns1)) :
    (runScript env w).2.mainGrid = postProcess (overwriteGrid w.mainGrid dataA1 ++ ns1) := by
  cases hDel : env.deleteOk with
  | true =>
    simp [runScript, hAuth, hRead, hUpd, hApp, hClr, hFor, hDel, hm, apply_ite,
      postProcess, List.length_append]
    split <;> (intro h2; omega)
  | false =>
    simp [runScript, hAuth, hRead, hUpd, hApp, hClr, hFor, hDel, hm, apply_ite,
      postProcess, List.length_append]
    split <;> (intro h2; omega)

/-- Claim C2: under a successful merge, the collected new rows are exactly
one per incoming data row whose key (index 5) is non-empty and absent from
the main table's key column, in incoming-row order, each row being the
incoming row's span 1-7 followed by the constant 400; for an incoming row
of at least 8 fields the collected row has exactly 8 fields, fields 0-6
equal the incoming fields 1-7, and field 7 is the number 400. On the
all-success run the collected rows sit after the last existing row of the
written-back grid: the final grid read past the overwritten region is
exactly the collected list. -/
theorem C2_new_rows_appended (dataA dataB dataA1 ns1 : List Row)
    (hm : processMerge dataA dataB = some (dataA1, ns1)) :
    ns1 = ((dataB.drop 1).filter (isNewAccountRow dataA)).map newRowData ∧
    (∀ rB : Row, 8 ≤ rB.length →
      (newRowData rB).length = 8 ∧
      (∀ t, t < 7 → (newRowData rB).get? t = rB.get? (t + 1)) ∧
      (newRowData rB).get? 7 = some (Cell.num 400)) ∧
    (∀ (env : Env) (w : World) (res : List Row × List Row),
      env.authOk = true → env.readOk = true → env.updateOk = true →
      env.appendOk = true → env.clearOk = true → env.formulaOk = true →
      processMerge w.mainGrid w.incomingGrid = some res →
      2 ≤ (overwriteGrid w.mainGrid res.1).length →
      ∀ t, ((runScript env w).2.mainGrid).get?
        ((overwriteGrid w.mainGrid res.1).length + t) = res.2.get? t) := by
  refine ⟨?_, ?_, ?_⟩
  · obtain ⟨lookup, hb, hl⟩ := processMerge_eq _ _ _ _ hm
    have hns := mergeLoop_newRows lookup _ _ _ _ _ hl
    rw [List.nil_append] at hns
    rw [hns]
    congr 1
    exact List.filter_congr (fun x _ => isAppendRow_eq_isNewAccountRow dataA lookup hb x)
  · intro rB hlen
    refine ⟨?_, ?_, ?_⟩
    · unfold newRowData
      simp [List.length_take, List.length_drop]
      omega
    · intro t ht
      unfold newRowData
      have h7 : ((rB.drop 1).take 7).length = 7 := by
        simp [List.length_take, List.length_drop]
        omega
      rw [List.get?_append (by omega), List.get?_take (by omega), List.get?_drop]
      congr 1
      omega
    · unfold newRowData
      have h7 : ((rB.drop 1).take 7).length = 7 := by
        simp [List.length_take, List.length_drop]
        omega
      rw [List.get?_append_right (by omega)]
      rw [h7]
      rfl
  · intro env w res hAuth hRead hUpd hApp hClr hFor hm2 hlen0 t
    obtain ⟨a1, ns⟩ := res
    have hlen1 : 2 ≤ (overwriteGrid w.mainGrid a1).length := hlen0
    have hrun : (runScript env w).2.mainGrid =
        postProcess (overwriteGrid w.mainGrid a1 ++ ns) :=
      runScript_mainGrid env w a1 ns hAuth hRead hUpd hApp hClr hFor hm2
    have hNlen : 1 < (overwriteGrid w.mainGrid a1 ++ ns).length := by
      rw [List.length_append]
      omega
    rw [hrun, postProcess_eq_modifyAt _ hNlen,
      modifyAt_get_ne _ _ _ _ (by omega : (1 : Nat) ≠ (overwriteGrid w.mainGrid a1).length + t),
      clearColL_get]
    have happ : (overwriteGrid w.mainGrid a1 ++ ns).get?
        ((overwriteGrid w.mainGrid a1).length + t) = ns.get? t := by
      rw [List.get?_append_right (by omega)]
      congr 1
      omega
    rw [happ]
    cases hnt : ns.get? t with
    | none => rfl
    | some x =>
      simp only [Option.map_some']
      have hx : x ∈ ns := List.get?_mem hnt
      obtain ⟨lookup, hb, hl⟩ := processMerge_eq _ _ _ _ hm2
      have hns := mergeLoop_newRows lookup _ _ _ _ _ hl
      rw [List.nil_append] at hns
      rw [hns] at hx
      obtain ⟨rB, hrB, rfl⟩ := List.mem_map.mp hx
      have hcc : clearCell (newRowData rB) 11 = newRowData rB :=
        clearCell_id _ (by have := newRowData_length_le rB; omega)
      by_cases hcond : 1 ≤ (overwriteGrid w.mainGrid a1).length + t ∧
          (overwriteGrid w.mainGrid a1).length + t < (overwriteGrid w.mainGrid a1 ++ ns).length
      · rw [if_pos hcond, hcc]
      · rw [if_neg hcond]

theorem C2_new_rows_appended_witness :
    processMerge [[Cell.str "h"], [Cell.str "v1", Cell.str "v2", Cell.str "v3",
        Cell.str "v4", Cell.str "K1"]]
      [[Cell.str "hb"], [Cell.str "x0", Cell.str "a", Cell.str "b", Cell.str "c",
        Cell.str "d", Cell.str "K9", Cell.str "e", Cell.str "f"]] =
      some ([[Cell.str "h"], [Cell.str "v1", Cell.str "v2", Cell.str "v3",
        Cell.str "v4", Cell.str "K1"]],
       [[Cell.str "a", Cell.str "b", Cell.str "c", Cell.str "d", Cell.str "K9",
         Cell.str "e", Cell.str "f", Cell.num 400]]) ∧
    ([[Cell.str "a", Cell.str "b", Cell.str "c", Cell.str "d", Cell.str "K9",
       Cell.str "e", Cell.str "f", Cell.num 400]] : List Row) =
      ((([[Cell.str "hb"], [Cell.str "x0", Cell.str "a", Cell.str "b", Cell.str "c",
        Cell.str "d", Cell.str "K9", Cell.str "e", Cell.str "f"]] : List Row).drop 1).filter
        (isNewAccountRow [[Cell.str "h"], [Cell.str "v1", Cell.str "v2", Cell.str "v3",
          Cell.str "v4", Cell.str "K1"]])).map newRowData ∧
    (newRowData [Cell.str "x0", Cell.str "a", Cell.str "b", Cell.str "c",
      Cell.str "d", Cell.str "K9", Cell.str "e", Cell.str "f"]).get? 7 =
      some (Cell.num 400) := by
  have H := C2_new_rows_appended
    [[Cell.str "h"], [Cell.str "v1", Cell.str "v2", Cell.str "v3", Cell.str "v4",
      Cell.str "K1"]]
    [[Cell.str "hb"], [Cell.str "x0", Cell.str "a", Cell.str "b", Cell.str "c",
      Cell.str "d", Cell.str "K9", Cell.str "e", Cell.str "f"]]
    [[Cell.str "h"], [Cell.str "v1", Cell.str "v2", Cell.str "v3", Cell.str "v4",
      Cell.str "K1"]]
    [[Cell.str "a", Cell.str "b", Cell.str "c", Cell.str "d", Cell.str "K9",
      Cell.str "e", Cell.str "f", Cell.num 400]]
    (by decide)
  exact ⟨by decide, H.1,
    (H.2.1 [Cell.str "x0", Cell.str "a", Cell.str "b", Cell.str "c", Cell.str "d",
      Cell.str "K9", Cell.str "e", Cell.str "f"] (by decide)).2.2⟩

theorem dictFind_of_lastIdx (dataA : List Row) (lookup : List (Cell × Nat))
    (hb : buildLookup dataA = some lookup) (k : Cell) (t : Nat)
    (hlast : lastIdxWith (fun r => r.get? 4 == some k) (dataA.drop 1) = some t) :
    dictFind lookup k = some (1 + t) := by
  rw [buildLookupAux_dictFind (dataA.drop 1) 1 lookup hb k, hlast]
  rfl

theorem dictFind_some_key (dataA : List Row) (lookup : List (Cell × Nat))
    (hb : buildLookup dataA = some lookup) (k : Cell) (j : Nat)
    (hd : dictFind lookup k = some j) :
    ∃ t rA, j = 1 + t ∧ (dataA.drop 1).get? t = some rA ∧ rA.get? 4 = some k := by
  rw [buildLookupAux_dictFind (dataA.drop 1) 1 lookup hb k] at hd
  obtain ⟨t, ht, rfl⟩ := Option.map_eq_some'.mp hd
  obtain ⟨a, ha, hpa, _⟩ := lastIdxWith_get _ _ _ ht
  exact ⟨t, a, rfl, ha, by simpa using hpa⟩

theorem rowMatchesIdx_zero (dataA : List Row) (lookup : List (Cell × Nat))
    (hb : buildLookup dataA = some lookup) (r : Row) :
    rowMatchesIdx lookup 0 r = false := by
  unfold rowMatchesIdx
  cases h5 : r.get? 5 with
  | none => rfl
  | some k =>
    show (!k.falsy && (dictFind lookup k == some 0)) = false
    cases hd : dictFind lookup k with
    | none => simp
    | some j =>
      obtain ⟨t, rA, rfl, _, _⟩ := dictFind_some_key dataA lookup hb k j hd
      simp

theorem rowMatchesIdx_eq_keyed (dataA : List Row) (lookup : List (Cell × Nat))
    (hb : buildLookup dataA = some lookup) (k : Cell) (t : Nat) (rA : Row)
    (hk : k.falsy = false)
    (hlast : lastIdxWith (fun r => r.get? 4 == some k) (dataA.drop 1) = some t)
    (hrA : (dataA.drop 1).get? t = some rA)
    (r : Row) :
    rowMatchesIdx lookup (1 + t) r = (r.get? 5 == some k) := by
  have hkA : rA.get? 4 = some k := by
    obtain ⟨a, ha, hpa, _⟩ := lastIdxWith_get _ _ _ hlast
    rw [hrA] at ha
    cases ha
    simpa using hpa
  unfold rowMatchesIdx
  cases h5 : r.get? 5 with
  | none => simp
  | some kr =>
    show (!kr.falsy && (dictFind lookup kr == some (1 + t))) = (some kr == some k)
    by_cases hkk : kr = k
    · subst hkk
      rw [hk, dictFind_of_lastIdx dataA lookup hb kr t hlast]
      simp
    · have hne : dictFind lookup kr ≠ some (1 + t) := by
        intro heq
        obtain ⟨t2, rA2, ht2, hr2, hk2⟩ := dictFind_some_key dataA lookup hb kr _ heq
        have htt : t2 = t := by omega
        subst htt
        rw [hrA] at hr2
        cases hr2
        rw [hkA] at hk2
        exact hkk (Option.some.inj hk2).symm
      have : (dictFind lookup kr == some (1 + t)) = false := by
        rw [beq_eq_false_iff_ne]
        exact hne
      rw [this]
      simp [hkk]

/-- Claim C1: for a main data row holding the (unique, hence last) main
occurrence of key `k` at data position `t`, and an incoming data row `rB`
that is the only incoming row carrying the non-empty key `k`, a
successful merge rewrites exactly that main row to `rB`'s fields 1-4
followed by its own fields from index 4 on; the header row and every main
row whose key is matched by no incoming row are unchanged. -/
theorem C1_update_matched_row (dataA dataB dataA1 ns1 : List Row) (t : Nat)
    (rA rB : Row) (k : Cell)
    (hm : processMerge dataA dataB = some (dataA1, ns1))
    (hk : k.falsy = false)
    (hrA : (dataA.drop 1).get? t = some rA)
    (hlastA : lastIdxWith (fun r => r.get? 4 == some k) (dataA.drop 1) = some t)
    (hrB : rB ∈ dataB.drop 1)
    (hkB : rB.get? 5 = some k)
    (huniqB : ∀ r ∈ dataB.drop 1, r.get? 5 = some k → r = rB) :
    dataA1.get? (1 + t) = some ((rB.drop 1).take 4 ++ rA.drop 4) ∧
    dataA1.get? 0 = dataA.get? 0 ∧
    (∀ t' rA', (dataA.drop 1).get? t' = some rA' →
      (∀ rB' ∈ dataB.drop 1, ∀ k', rB'.get? 5 = some k' → k'.falsy = false →
        rA'.get? 4 ≠ some k') →
      dataA1.get? (1 + t') = dataA.get? (1 + t')) := by
  obtain ⟨lookup, hb, hl⟩ := processMerge_eq _ _ _ _ hm
  have hget := mergeLoop_get lookup (dataB.drop 1) dataA [] dataA1 ns1 hl
  refine ⟨?_, ?_, ?_⟩
  · have hcong : lastWith (rowMatchesIdx lookup (1 + t)) (dataB.drop 1) =
        lastWith (fun r => r.get? 5 == some k) (dataB.drop 1) :=
      lastWith_congr _ _ _
        (fun r _ => rowMatchesIdx_eq_keyed dataA lookup hb k t rA hk hlastA hrA r)
    have hkB2 : rB[5]? = some k := by
      rw [← List.get?_eq_getElem?]
      exact hkB
    have hsome : (lastWith (fun r => r.get? 5 == some k) (dataB.drop 1)).isSome :=
      lastWith_isSome_of_mem _ _ rB hrB (by simp [hkB2])
    obtain ⟨rB2, hrB2⟩ := Option.isSome_iff_exists.mp hsome
    obtain ⟨hmem2, hsat2⟩ := lastWith_sat _ _ _ hrB2
    have hrB2eq : rB2 = rB := huniqB rB2 hmem2 (by simpa using hsat2)
    subst hrB2eq
    have hA1 : dataA.get? (1 + t) = some rA := by
      rw [← List.get?_drop]
      exact hrA
    rw [hget (1 + t), hcong, hrB2, hA1]
    rfl
  · rw [hget 0]
    have hnone : lastWith (rowMatchesIdx lookup 0) (dataB.drop 1) = none :=
      (lastWith_eq_none_iff _ _).mpr
        (fun r _ => rowMatchesIdx_zero dataA lookup hb r)
    rw [hnone]
  · intro t' rA' hrA' hno
    rw [hget (1 + t')]
    have hnone : lastWith (rowMatchesIdx lookup (1 + t')) (dataB.drop 1) = none := by
      rw [lastWith_eq_none_iff]
      intro r hr
      unfold rowMatchesIdx
      cases h5 : r.get? 5 with
      | none => rfl
      | some kr =>
        show (!kr.falsy && (dictFind lookup kr == some (1 + t'))) = false
        cases hfk : kr.falsy with
        | true => simp [hfk]
        | false =>
          have hne : dictFind lookup kr ≠ some (1 + t') := by
            intro heq
            obtain ⟨t2, rA2, ht2, hr2, hk2⟩ := dictFind_some_key dataA lookup hb kr _ heq
            have htt : t2 = t' := by omega
            subst htt
            rw [hrA'] at hr2
            cases hr2
            exact hno r hr kr h5 hfk hk2
          have hbeq : (dictFind lookup kr == some (1 + t')) = false := by
            rw [beq_eq_false_iff_ne]
            exact hne
          rw [hbeq]
          simp
    rw [hnone]

theorem C1_update_matched_row_witness :
    processMerge [[Cell.str "h"], [Cell.str "v1", Cell.str "v2", Cell.str "v3",
        Cell.str "v4", Cell.str "K1"]]
      [[Cell.str "hb"], [Cell.str "x0", Cell.str "u1", Cell.str "u2", Cell.str "u3",
        Cell.str "u4", Cell.str "K1", Cell.str "x6", Cell.str "x7"]] =
      some ([[Cell.str "h"], [Cell.str "u1", Cell.str "u2", Cell.str "u3",
        Cell.str "u4", Cell.str "K1"]], []) ∧
    ([[Cell.str "h"], [Cell.str "u1", Cell.str "u2", Cell.str "u3", Cell.str "u4",
      Cell.str "K1"]] : List Row).get? 1 =
      some [Cell.str "u1", Cell.str "u2", Cell.str "u3", Cell.str "u4", Cell.str "K1"] := by
  have H := C1_update_matched_row
    [[Cell.str "h"], [Cell.str "v1", Cell.str "v2", Cell.str "v3", Cell.str "v4",
      Cell.str "K1"]]
    [[Cell.str "hb"], [Cell.str "x0", Cell.str "u1", Cell.str "u2", Cell.str "u3",
      Cell.str "u4", Cell.str "K1", Cell.str "x6", Cell.str "x7"]]
    [[Cell.str "h"], [Cell.str "u1", Cell.str "u2", Cell.str "u3", Cell.str "u4",
      Cell.str "K1"]] [] 0
    [Cell.str "v1", Cell.str "v2", Cell.str "v3", Cell.str "v4", Cell.str "K1"]
    [Cell.str "x0", Cell.str "u1", Cell.str "u2", Cell.str "u3", Cell.str "u4",
      Cell.str "K1", Cell.str "x6", Cell.str "x7"]
    (Cell.str "K1")
    (by decide) (by decide) (by decide) (by decide) (by decide) (by decide) (by decide)
  exact ⟨by decide, H.1⟩

/-- Claim C6: when the same non-empty key occurs in several incoming data
rows and is present in the main table, every occurrence is matched through
the single lookup built before the iteration, which maps the key to the
last main data row carrying it; each occurrence overwrites that same row,
so after the merge its first four fields equal the last occurrence's
span 1-4 (followed by its own fields from index 4 on, unchanged). -/
theorem C6_duplicate_keys_last_wins (dataA dataB dataA1 ns1 : List Row) (t : Nat)
    (rA rB : Row) (k : Cell)
    (hm : processMerge dataA dataB = some (dataA1, ns1))
    (hk : k.falsy = false)
    (hrA : (dataA.drop 1).get? t = some rA)
    (hlastA : lastIdxWith (fun r => r.get? 4 == some k) (dataA.drop 1) = some t)
    (hlastB : lastWith (fun r => r.get? 5 == some k) (dataB.drop 1) = some rB) :
    dataA1.get? (1 + t) = some ((rB.drop 1).take 4 ++ rA.drop 4) ∧
    (∀ lookup, buildLookup dataA = some lookup →
      dictFind lookup k = some (1 + t) ∧
      ∀ r ∈ dataB.drop 1, r.get? 5 = some k →
        rowMatchesIdx lookup (1 + t) r = true) := by
  obtain ⟨lookup, hb, hl⟩ := processMerge_eq _ _ _ _ hm
  have hget := mergeLoop_get lookup (dataB.drop 1) dataA [] dataA1 ns1 hl
  constructor
  · have hcong : lastWith (rowMatchesIdx lookup (1 + t)) (dataB.drop 1) =
        lastWith (fun r => r.get? 5 == some k) (dataB.drop 1) :=
      lastWith_congr _ _ _
        (fun r _ => rowMatchesIdx_eq_keyed dataA lookup hb k t rA hk hlastA hrA r)
    have hA1 : dataA.get? (1 + t) = some rA := by
      rw [← List.get?_drop]
      exact hrA
    rw [hget (1 + t), hcong, hlastB, hA1]
    rfl
  · intro lookup2 hb2
    have hbe : lookup2 = lookup := by
      rw [hb] at hb2
      exact (Option.some.inj hb2).symm
    subst hbe
    refine ⟨dictFind_of_lastIdx dataA lookup2 hb k t hlastA, ?_⟩
    intro r hr h5
    rw [rowMatchesIdx_eq_keyed dataA lookup2 hb k t rA hk hlastA hrA r, h5]
    simp

theorem C6_duplicate_keys_last_wins_witness :
    processMerge [[Cell.str "h"], [Cell.str "v1", Cell.str "v2", Cell.str "v3",
        Cell.str "v4", Cell.str "K1"]]
      [[Cell.str "hb"],
       [Cell.str "x0", Cell.str "a1", Cell.str "a2", Cell.str "a3", Cell.str "a4",
        Cell.str "K1", Cell.str "e", Cell.str "f"],
       [Cell.str "x0", Cell.str "b1", Cell.str "b2", Cell.str "b3", Cell.str "b4",
        Cell.str "K1", Cell.str "e", Cell.str "f"]] =
      some ([[Cell.str "h"], [Cell.str "b1", Cell.str "b2", Cell.str "b3",
        Cell.str "b4", Cell.str "K1"]], []) ∧
    ([[Cell.str "h"], [Cell.str "b1", Cell.str "b2", Cell.str "b3", Cell.str "b4",
      Cell.str "K1"]] : List Row).get? 1 =
      some [Cell.str "b1", Cell.str "b2", Cell.str "b3", Cell.str "b4", Cell.str "K1"] := by
  have H := C6_duplicate_keys_last_wins
    [[Cell.str "h"], [Cell.str "v1", Cell.str "v2", Cell.str "v3", Cell.str "v4",
      Cell.str "K1"]]
    [[Cell.str "hb"],
     [Cell.str "x0", Cell.str "a1", Cell.str "a2", Cell.str "a3", Cell.str "a4",
      Cell.str "K1", Cell.str "e", Cell.str "f"],
     [Cell.str "x0", Cell.str "b1", Cell.str "b2", Cell.str "b3", Cell.str "b4",
      Cell.str "K1", Cell.str "e", Cell.str "f"]]
    [[Cell.str "h"], [Cell.str "b1", Cell.str "b2", Cell.str "b3", Cell.str "b4",
      Cell.str "K1"]] [] 0
    [Cell.str "v1", Cell.str "v2", Cell.str "v3", Cell.str "v4", Cell.str "K1"]
    [Cell.str "x0", Cell.str "b1", Cell.str "b2", Cell.str "b3", Cell.str "b4",
      Cell.str "K1", Cell.str "e", Cell.str "f"]
    (Cell.str "K1")
    (by decide) (by decide) (by decide) (by decide) (by decide)
  exact ⟨by decide, H.1⟩

theorem isSome_of_lt_length (r : Row) (n : Nat) (h : n < r.length) : r[n]?.isSome := by
  have hne : ¬(r[n]? = none) := by
    rw [List.getElem?_eq_none_iff]
    omega
  exact Option.ne_none_iff_isSome.mp hne

/-- Claim C5 (implicit): the span extractions are truncating slices, so
the merge raises no error on incoming data rows of length 6 or 7 with a
non-empty key: if every main data row reaches index 4 and every incoming
data row reaches index 5 the merge succeeds, and a failing merge means
some main data row is shorter than 5 fields or some incoming data row
shorter than 6 — only the single-position accesses can fail. For a
new-account row of length 6 or 7 the appended row is its fields from
index 1 to the end followed by 400, i.e. a row of fewer than 8 fields,
and it is indeed collected. -/
theorem C5_truncating_slices (dataA dataB : List Row) :
    ((∀ r ∈ dataA.drop 1, 5 ≤ r.length) → (∀ r ∈ dataB.drop 1, 6 ≤ r.length) →
      (processMerge dataA dataB).isSome) ∧
    (processMerge dataA dataB = none →
      (∃ r ∈ dataA.drop 1, r.length < 5) ∨ (∃ r ∈ dataB.drop 1, r.length < 6)) ∧
    (∀ rB : Row, 6 ≤ rB.length → rB.length ≤ 7 →
      newRowData rB = rB.drop 1 ++ [Cell.num 400] ∧ (newRowData rB).length < 8) ∧
    (∀ dataA1 ns1 rB, processMerge dataA dataB = some (dataA1, ns1) →
      rB ∈ dataB.drop 1 → isNewAccountRow dataA rB = true → newRowData rB ∈ ns1) := by
  have hsome : (∀ r ∈ dataA.drop 1, 5 ≤ r.length) → (∀ r ∈ dataB.drop 1, 6 ≤ r.length) →
      (processMerge dataA dataB).isSome := by
    intro hA hB
    exact processMerge_isSome dataA dataB
      (fun r hr => isSome_of_lt_length r 4 (by have := hA r hr; omega))
      (fun r hr => isSome_of_lt_length r 5 (by have := hB r hr; omega))
  refine ⟨hsome, ?_, ?_, ?_⟩
  · intro hnone
    by_contra hcon
    push_neg at hcon
    obtain ⟨hA, hB⟩ := hcon
    have := hsome (fun r hr => by have := hA r hr; omega)
      (fun r hr => by have := hB r hr; omega)
    rw [hnone] at this
    cases this
  · intro rB h6 h7
    constructor
    · unfold newRowData
      congr 1
      exact List.take_of_length_le (by simp [List.length_drop]; omega)
    · unfold newRowData
      simp [List.length_take, List.length_drop]
      omega
  · intro dataA1 ns1 rB hm hmem hnew
    obtain ⟨lookup, hb, hl⟩ := processMerge_eq _ _ _ _ hm
    have hns := mergeLoop_newRows lookup _ _ _ _ _ hl
    rw [List.nil_append] at hns
    rw [hns]
    apply List.mem_map_of_mem
    rw [List.mem_filter]
    refine ⟨hmem, ?_⟩
    rw [isAppendRow_eq_isNewAccountRow dataA lookup hb rB]
    exact hnew

theorem C5_truncating_slices_witness :
    (6 ≤ ([Cell.str "x0", Cell.str "a", Cell.str "b", Cell.str "c", Cell.str "d",
      Cell.str "K9", Cell.str "e"] : Row).length) ∧
    newRowData [Cell.str "x0", Cell.str "a", Cell.str "b", Cell.str "c", Cell.str "d",
        Cell.str "K9", Cell.str "e"] =
      ([Cell.str "x0", Cell.str "a", Cell.str "b", Cell.str "c", Cell.str "d",
        Cell.str "K9", Cell.str "e"] : Row).drop 1 ++ [Cell.num 400] ∧
    (processMerge [[Cell.str "h"], [Cell.str "v1", Cell.str "v2", Cell.str "v3",
        Cell.str "v4", Cell.str "K1"]]
      [[Cell.str "hb"], [Cell.str "x0", Cell.str "a", Cell.str "b", Cell.str "c",
        Cell.str "d", Cell.str "K9", Cell.str "e"]]).isSome ∧
    newRowData [Cell.str "x0", Cell.str "a", Cell.str "b", Cell.str "c", Cell.str "d",
        Cell.str "K9", Cell.str "e"] ∈
      [[Cell.str "a", Cell.str "b", Cell.str "c", Cell.str "d", Cell.str "K9",
        Cell.str "e", Cell.num 400]] := by
  have H := C5_truncating_slices
    [[Cell.str "h"], [Cell.str "v1", Cell.str "v2", Cell.str "v3", Cell.str "v4",
      Cell.str "K1"]]
    [[Cell.str "hb"], [Cell.str "x0", Cell.str "a", Cell.str "b", Cell.str "c",
      Cell.str "d", Cell.str "K9", Cell.str "e"]]
  refine ⟨by decide, (H.2.2.1 _ (by decide) (by decide)).1, ?_, ?_⟩
  · exact H.1 (by decide) (by decide)
  · exact H.2.2.2 [[Cell.str "h"], [Cell.str "v1", Cell.str "v2", Cell.str "v3",
      Cell.str "v4", Cell.str "K1"]]
      [[Cell.str "a", Cell.str "b", Cell.str "c", Cell.str "d", Cell.str "K9",
        Cell.str "e", Cell.num 400]]
      [Cell.str "x0", Cell.str "a", Cell.str "b", Cell.str "c", Cell.str "d",
        Cell.str "K9", Cell.str "e"]
      (by decide) (by decide) (by decide)

/-- Claim C7 as stated is false at this input: the first merge appends
one new row; re-running the merge against the same incoming table with
the main table already containing that row collects NO rows for append —
the previously appended row is matched by its key (now in the main key
column) and update-matched with identical values instead of being
duplicated. -/
theorem C7_counterexample :
    processMerge [[Cell.str "h"], [Cell.str "v1", Cell.str "v2", Cell.str "v3",
        Cell.str "v4", Cell.str "K1"]]
      [[Cell.str "hb"], [Cell.str "x0", Cell.str "a", Cell.str "b", Cell.str "c",
        Cell.str "d", Cell.str "K9", Cell.str "e", Cell.str "f"]] =
      some ([[Cell.str "h"], [Cell.str "v1", Cell.str "v2", Cell.str "v3",
        Cell.str "v4", Cell.str "K1"]],
       [[Cell.str "a", Cell.str "b", Cell.str "c", Cell.str "d", Cell.str "K9",
         Cell.str "e", Cell.str "f", Cell.num 400]]) ∧
    processMerge
      ([[Cell.str "h"], [Cell.str "v1", Cell.str "v2", Cell.str "v3",
        Cell.str "v4", Cell.str "K1"]] ++
       [[Cell.str "a", Cell.str "b", Cell.str "c", Cell.str "d", Cell.str "K9",
         Cell.str "e", Cell.str "f", Cell.num 400]])
      [[Cell.str "hb"], [Cell.str "x0", Cell.str "a", Cell.str "b", Cell.str "c",
        Cell.str "d", Cell.str "K9", Cell.str "e", Cell.str "f"]] =
      some (([[Cell.str "h"], [Cell.str "v1", Cell.str "v2", Cell.str "v3",
        Cell.str "v4", Cell.str "K1"]] ++
       [[Cell.str "a", Cell.str "b", Cell.str "c", Cell.str "d", Cell.str "K9",
         Cell.str "e", Cell.str "f", Cell.num 400]]), []) :=
  ⟨by decide, by decide⟩

theorem rowMatchesIdx_true_elim (lookup : List (Cell × Nat)) (j : Nat) (r : Row)
    (h : rowMatchesIdx lookup j r = true) :
    ∃ k, r.get? 5 = some k ∧ k.falsy = false ∧ dictFind lookup k = some j := by
  unfold rowMatchesIdx at h
  cases h5 : r.get? 5 with
  | none =>
    rw [h5] at h
    exact Bool.noConfusion h
  | some k =>
    rw [h5] at h
    simp only [Bool.and_eq_true, Bool.not_eq_true', beq_iff_eq] at h
    exact ⟨k, rfl, h.1, h.2⟩

theorem isAppendRow_true_elim (lookup : List (Cell × Nat)) (r : Row)
    (h : isAppendRow lookup r = true) :
    ∃ k, r.get? 5 = some k ∧ k.falsy = false ∧ dictFind lookup k = none := by
  unfold isAppendRow at h
  cases h5 : r.get? 5 with
  | none =>
    rw [h5] at h
    exact Bool.noConfusion h
  | some k =>
    rw [h5] at h
    simp only [Bool.and_eq_true, Bool.not_eq_true', Option.isNone_iff_eq_none] at h
    exact ⟨k, rfl, h.1, h.2⟩

theorem filter_map_eq_filterMap (p : α → Bool) (f : α → β) (l : List α) :
    (l.filter p).map f = l.filterMap (fun a => if p a then some (f a) else none) := by
  induction l with
  | nil => rfl
  | cons a as ih =>
    by_cases hp : p a <;> simp [List.filter_cons, List.filterMap_cons, hp, ih]

theorem buildLookupAux_congr (rows1 : List Row) (i : Nat) (rows2 : List Row)
    (h : rows1.map (fun r => r.get? 4) = rows2.map (fun r => r.get? 4)) :
    buildLookupAux i rows1 = buildLookupAux i rows2 := by
  induction rows1 generalizing i rows2 with
  | nil =>
    cases rows2 with
    | nil => rfl
    | cons b bs => exact absurd h (by simp)
  | cons a as ih =>
    cases rows2 with
    | nil => exact absurd h (by simp)
    | cons b bs =>
      simp only [List.map_cons, List.cons.injEq] at h
      unfold buildLookupAux
      rw [h.1, ih (i + 1) bs h.2]

theorem lastIdxWith_of_map_eq (f : α → Option Cell) (q : Option Cell → Bool)
    (l1 l2 : List α) (h : l1.map f = l2.map f) :
    lastIdxWith (fun a => q (f a)) l1 = lastIdxWith (fun a => q (f a)) l2 := by
  induction l1 generalizing l2 with
  | nil =>
    cases l2 with
    | nil => rfl
    | cons b bs => exact absurd h (by simp)
  | cons a as ih =>
    cases l2 with
    | nil => exact absurd h (by simp)
    | cons b bs =>
      simp only [List.map_cons, List.cons.injEq] at h
      unfold lastIdxWith
      rw [h.1, ih bs h.2]

theorem get?_cons_one_add (x : Row) (xs : List Row) (t : Nat) :
    (x :: xs).get? (1 + t) = xs.get? t := by
  rw [Nat.add_comm]
  rfl

/-- Claim C7 (amended): re-running the merge against the same incoming
table, with a main table (which has its header row) already containing
the first run's result, is idempotent outright: update-matched rows are
overwritten with the same values, and each previously appended row now
carries its key in the main key column, so every incoming row with a
previously-new key is matched and update-matched with identical values —
NO row is collected for append a second time and the main table is
returned exactly unchanged. -/
theorem C7_rerun_idempotent (hA : Row) (restA dataB dataA1 ns1 : List Row)
    (hm : processMerge (hA :: restA) dataB = some (dataA1, ns1)) :
    processMerge (dataA1 ++ ns1) dataB = some (dataA1 ++ ns1, []) := by
  obtain ⟨lookup, hb, hl⟩ := processMerge_eq _ _ _ _ hm
  have hbA : buildLookupAux 1 restA = some lookup := hb
  have hget := mergeLoop_get lookup (dataB.drop 1) (hA :: restA) [] dataA1 ns1 hl
  have hlen1 : dataA1.length = restA.length + 1 := by
    have := mergeLoop_main_length lookup (dataB.drop 1) (hA :: restA) [] dataA1 ns1 hl
    simpa using this
  have hns := mergeLoop_newRows lookup (dataB.drop 1) (hA :: restA) [] dataA1 ns1 hl
  rw [List.nil_append] at hns
  have hkeysB := mergeLoop_keys lookup (dataB.drop 1) _ _ hl
  obtain ⟨hA1, restA1, rfl⟩ : ∃ hA1 restA1, dataA1 = hA1 :: restA1 := by
    cases dataA1 with
    | nil => simp at hlen1
    | cons x xs => exact ⟨x, xs, rfl⟩
  have hlenr : restA1.length = restA.length := by simpa using hlen1
  -- per-row characterization of the first run's data rows
  have hrow1 : ∀ t, restA1.get? t =
      match lastWith (rowMatchesIdx lookup (1 + t)) (dataB.drop 1) with
      | none => restA.get? t
      | some rBm => (restA.get? t).map (updateRow rBm) := by
    intro t
    rw [← get?_cons_one_add hA1 restA1 t, hget (1 + t), get?_cons_one_add hA restA t]
  -- the first run preserves the key column
  have hkc : restA1.map (fun r => r.get? 4) = restA.map (fun r => r.get? 4) := by
    apply List.ext_get?
    intro t
    rw [List.get?_map, List.get?_map, hrow1 t]
    cases hlw : lastWith (rowMatchesIdx lookup (1 + t)) (dataB.drop 1) with
    | none => rfl
    | some rBm =>
      obtain ⟨hmem, hsat⟩ := lastWith_sat _ _ _ hlw
      obtain ⟨kB, h5B, _, _⟩ := rowMatchesIdx_true_elim _ _ _ hsat
      have hlenB : 6 ≤ rBm.length := by
        apply row_length_of_key rBm kB
        rw [← List.get?_eq_getElem?]
        exact h5B
      cases hres : restA.get? t with
      | none => rfl
      | some r =>
        simp only [Option.map_some']
        congr 1
        exact updateRow_get4 rBm r (by omega)
  -- the main-table keys exist
  have hkeyA : ∀ r ∈ restA, (r.get? 4).isSome :=
    (buildLookupAux_isSome 1 restA).mp (by rw [hbA]; rfl)
  -- facts about the appended rows
  have hnsfacts : ∀ x ∈ ns1, ∃ rS kS, x = newRowData rS ∧ rS.get? 5 = some kS ∧
      kS.falsy = false ∧ dictFind lookup kS = none ∧ x.get? 4 = some kS ∧
      6 ≤ rS.length := by
    intro x hx
    rw [hns] at hx
    obtain ⟨rS, hrS, rfl⟩ := List.mem_map.mp hx
    rw [List.mem_filter] at hrS
    obtain ⟨hmemS, happS⟩ := hrS
    obtain ⟨kS, h5S, hfS, hdS⟩ := isAppendRow_true_elim _ _ happS
    have hlenS : 6 ≤ rS.length := by
      apply row_length_of_key rS kS
      rw [← List.get?_eq_getElem?]
      exact h5S
    refine ⟨rS, kS, rfl, h5S, hfS, hdS, ?_, hlenS⟩
    rw [newRowData_get4 rS hlenS]
    exact h5S
  -- the second run's lookup exists
  have hkey2 : ∀ r ∈ restA1 ++ ns1, (r.get? 4).isSome := by
    intro r hr
    rcases List.mem_append.mp hr with h1 | h2
    · obtain ⟨t, ht⟩ := List.mem_iff_get?.mp h1
      have hmt : (restA1.map (fun r => r.get? 4)).get? t = some (r.get? 4) := by
        rw [List.get?_map, ht]
        rfl
      rw [hkc, List.get?_map] at hmt
      cases hres : restA.get? t with
      | none =>
        rw [hres] at hmt
        exact Option.noConfusion hmt
      | some r0 =>
        rw [hres] at hmt
        simp only [Option.map_some', Option.some_inj] at hmt
        rw [← hmt]
        exact hkeyA r0 (List.get?_mem hres)
    · obtain ⟨rS, kS, _, _, _, _, hx4, _⟩ := hnsfacts r h2
      rw [hx4]
      rfl
  obtain ⟨lookup2, hb2⟩ := Option.isSome_iff_exists.mp
    ((buildLookupAux_isSome 1 (restA1 ++ ns1)).mpr hkey2)
  -- dictFind characterizations
  have hdf1 : ∀ k, dictFind lookup k =
      (lastIdxWith (fun r => r.get? 4 == some k) restA).map (fun t => 1 + t) :=
    fun k => buildLookupAux_dictFind restA 1 lookup hbA k
  have hdf2 : ∀ k, dictFind lookup2 k =
      (lastIdxWith (fun r => r.get? 4 == some k) (restA1 ++ ns1)).map (fun t => 1 + t) :=
    fun k => buildLookupAux_dictFind (restA1 ++ ns1) 1 lookup2 hb2 k
  have hli : ∀ k, lastIdxWith (fun r => r.get? 4 == some k) restA1 =
      lastIdxWith (fun r => r.get? 4 == some k) restA :=
    fun k => lastIdxWith_of_map_eq (fun r => r.get? 4) (fun o => o == some k)
      restA1 restA hkc
  -- the second run does not fail
  obtain ⟨st2, hl2⟩ := Option.isSome_iff_exists.mp
    (mergeLoop_isSome lookup2 (dataB.drop 1) hkeysB ((hA1 :: restA1) ++ ns1, []))
  obtain ⟨dataA2, ns2⟩ := st2
  have hget2 := mergeLoop_get lookup2 (dataB.drop 1) ((hA1 :: restA1) ++ ns1) []
    dataA2 ns2 hl2
  -- every key appearing in the second lookup search is found
  have hfound : ∀ k, k.falsy = false →
      (∀ a ∈ dataB.drop 1, a.get? 5 = some k → False) ∨ (dictFind lookup2 k).isSome := by
    intro k hkf
    by_cases hocc : ∃ a ∈ dataB.drop 1, a.get? 5 = some k
    · right
      obtain ⟨a, ha, h5a⟩ := hocc
      cases hd1 : dictFind lookup k with
      | some j1 =>
        obtain ⟨t1, rA1, hj1, hr1, hk1⟩ := dictFind_some_key (hA :: restA) lookup hb k j1 hd1
        have hsome1 : (lastIdxWith (fun r => r.get? 4 == some k) restA).isSome := by
          apply lastIdxWith_isSome _ restA t1 rA1 hr1
          rw [hk1]
          simp
        obtain ⟨s, hs⟩ := Option.isSome_iff_exists.mp hsome1
        have hs1 : lastIdxWith (fun r => r.get? 4 == some k) restA1 = some s := by
          rw [hli k]
          exact hs
        rw [hdf2 k, lastIdxWith_append]
        cases hlk : lastIdxWith (fun r => r.get? 4 == some k) ns1 with
        | some t0 => simp
        | none =>
          rw [hs1]
          simp
      | none =>
        have hia : isAppendRow lookup a = true := by
          unfold isAppendRow
          rw [h5a]
          show (!k.falsy && (dictFind lookup k).isNone) = true
          rw [hkf, hd1]
          rfl
        have hansm : newRowData a ∈ ns1 := by
          rw [hns]
          apply List.mem_map_of_mem
          rw [List.mem_filter]
          exact ⟨ha, hia⟩
        have hlena : 6 ≤ a.length := by
          apply row_length_of_key a k
          rw [← List.get?_eq_getElem?]
          exact h5a
        obtain ⟨t0, ht0⟩ := List.mem_iff_get?.mp hansm
        have hsome0 : (lastIdxWith (fun r => r.get? 4 == some k) ns1).isSome := by
          apply lastIdxWith_isSome _ ns1 t0 (newRowData a) ht0
          rw [newRowData_get4 a hlena, h5a]
          simp
        obtain ⟨s0, hs0⟩ := Option.isSome_iff_exists.mp hsome0
        rw [hdf2 k, lastIdxWith_append, hs0]
        simp
    · left
      intro a ha h5a
      exact hocc ⟨a, ha, h5a⟩
  -- no row is collected for append in the second run
  have hns2 : ns2 = [] := by
    have h2 := mergeLoop_newRows lookup2 (dataB.drop 1) _ _ _ _ hl2
    rw [List.nil_append] at h2
    rw [h2]
    have hfe : (dataB.drop 1).filter (isAppendRow lookup2) = [] := by
      rw [List.filter_eq_nil]
      intro a ha
      rw [Bool.not_eq_true]
      unfold isAppendRow
      cases h5a : a.get? 5 with
      | none => rfl
      | some ka =>
        show (!ka.falsy && (dictFind lookup2 ka).isNone) = false
        cases hfk : ka.falsy with
        | true => simp
        | false =>
          rcases hfound ka hfk with hno | hsome
          · exact absurd h5a (fun h => hno a ha h)
          · obtain ⟨j2, hj2⟩ := Option.isSome_iff_exists.mp hsome
            rw [hj2]
            rfl
    rw [hfe]
    rfl
  -- the second run leaves the table unchanged
  have hmain2 : dataA2 = (hA1 :: restA1) ++ ns1 := by
    apply List.ext_get?
    intro j
    rw [hget2 j]
    cases hlw : lastWith (rowMatchesIdx lookup2 j) (dataB.drop 1) with
    | none => rfl
    | some rBm =>
      obtain ⟨hmemB, hsatB⟩ := lastWith_sat _ _ _ hlw
      obtain ⟨k, h5m, hkf, hdm⟩ := rowMatchesIdx_true_elim _ _ _ hsatB
      have hlenm : 6 ≤ rBm.length := by
        apply row_length_of_key rBm k
        rw [← List.get?_eq_getElem?]
        exact h5m
      have hmapj : (lastIdxWith (fun r => r.get? 4 == some k) (restA1 ++ ns1)).map
          (fun t => 1 + t) = some j := by
        rw [← hdf2 k]
        exact hdm
      obtain ⟨t, ht, hjt⟩ := Option.map_eq_some'.mp hmapj
      subst hjt
      obtain ⟨rowj, hrowj, hrowjk0, hlater⟩ := lastIdxWith_get _ _ _ ht
      have hrowjk : rowj.get? 4 = some k := by simpa using hrowjk0
      have hGidx : ((hA1 :: restA1) ++ ns1).get? (1 + t) = (restA1 ++ ns1).get? t := by
        rw [List.cons_append]
        exact get?_cons_one_add _ _ t
      rw [hGidx, hrowj]
      simp only [Option.map_some', Option.some_inj]
      have hP2 : ∀ a ∈ dataB.drop 1,
          rowMatchesIdx lookup2 (1 + t) a = (a.get? 5 == some k) := by
        intro a _
        unfold rowMatchesIdx
        cases h5a : a.get? 5 with
        | none => simp
        | some ka =>
          show (!ka.falsy && (dictFind lookup2 ka == some (1 + t))) = (some ka == some k)
          by_cases hka : ka = k
          · subst hka
            rw [hkf, hdm]
            simp
          · have hne2 : dictFind lookup2 ka ≠ some (1 + t) := by
              intro heq
              rw [hdf2 ka] at heq
              obtain ⟨t2, ht2, hje⟩ := Option.map_eq_some'.mp heq
              have ht2t : t2 = t := by omega
              subst ht2t
              obtain ⟨row2, hrow2, hkey2a, _⟩ := lastIdxWith_get _ _ _ ht2
              rw [hrowj] at hrow2
              cases hrow2
              rw [hrowjk] at hkey2a
              simp only [beq_iff_eq, Option.some_inj] at hkey2a
              exact hka hkey2a.symm
            have hbeq : (dictFind lookup2 ka == some (1 + t)) = false := by
              rw [beq_eq_false_iff_ne]
              exact hne2
            rw [hbeq]
            simp [hka]
      have hlwk : lastWith (fun a => a.get? 5 == some k) (dataB.drop 1) = some rBm := by
        rw [← lastWith_congr _ _ _ hP2]
        exact hlw
      have happk := lastIdxWith_append (fun r => r.get? 4 == some k) restA1 ns1
      rw [ht] at happk
      cases hlk : lastIdxWith (fun r => r.get? 4 == some k) ns1 with
      | some t0 =>
        rw [hlk] at happk
        have hteq : t = restA1.length + t0 := Option.some.inj happk
        have hrow0 : ns1.get? t0 = some rowj := by
          rw [hteq, List.get?_append_right (by omega)] at hrowj
          rw [← hrowj]
          congr 1
          omega
        have hrmem : rowj ∈ ns1 := List.get?_mem hrow0
        obtain ⟨rS, kS, hreq, h5S, hfS, hdS, hx4, hlenS⟩ := hnsfacts rowj hrmem
        have hkk : kS = k := by
          rw [hrowjk] at hx4
          exact (Option.some.inj hx4).symm
        subst hkk
        have hP1x : ∀ a ∈ dataB.drop 1,
            (isAppendRow lookup a && (a.get? 5 == some kS)) = (a.get? 5 == some kS) := by
          intro a _
          cases h5a : a.get? 5 with
          | none =>
            unfold isAppendRow
            rw [h5a]
            rfl
          | some ka =>
            by_cases hka : ka = kS
            · subst hka
              unfold isAppendRow
              rw [h5a]
              simp [hkf, hdS]
            · have hfalse : (some ka == some kS) = false := by simp [hka]
              rw [hfalse, Bool.and_false]
        have hlwp : lastWith (fun a => isAppendRow lookup a && (a.get? 5 == some kS))
            (dataB.drop 1) = some rBm := by
          rw [lastWith_congr _ _ _ hP1x]
          exact hlwk
        have hLW : lastWith (fun x => x.get? 4 == some kS) ns1 =
            (lastWith (fun a => isAppendRow lookup a && (a.get? 5 == some kS))
              (dataB.drop 1)).bind
              (fun a => if isAppendRow lookup a then some (newRowData a) else none) := by
          rw [hns, filter_map_eq_filterMap]
          apply lastWith_filterMap
          · intro a b hab
            by_cases hia : isAppendRow lookup a = true
            · rw [if_pos hia] at hab
              cases hab
              obtain ⟨kaa, h5aa, hfaa, hdaa⟩ := isAppendRow_true_elim _ _ hia
              have hlenaa : 6 ≤ a.length := by
                apply row_length_of_key a kaa
                rw [← List.get?_eq_getElem?]
                exact h5aa
              rw [newRowData_get4 a hlenaa, hia, Bool.true_and]
            · rw [if_neg hia] at hab
              exact Option.noConfusion hab
          · intro a hpa
            simp only [Bool.and_eq_true] at hpa
            rw [if_pos hpa.1]
            rfl
        have hiaB : isAppendRow lookup rBm = true := by
          unfold isAppendRow
          rw [h5m]
          show (!kS.falsy && (dictFind lookup kS).isNone) = true
          rw [hkf, hdS]
          rfl
        have hval : lastWith (fun x => x.get? 4 == some kS) ns1 =
            some (newRowData rBm) := by
          rw [hLW, hlwp]
          simp only [Option.some_bind]
          rw [if_pos hiaB]
        have hval2 : lastWith (fun x => x.get? 4 == some kS) ns1 = some rowj := by
          rw [lastWith_eq_bind, hlk]
          simp only [Option.some_bind]
          exact hrow0
        rw [hval] at hval2
        rw [(Option.some.inj hval2).symm]
        exact updateRow_newRowData rBm hlenm
      | none =>
        rw [hlk] at happk
        have htm : lastIdxWith (fun r => r.get? 4 == some k) restA1 = some t := happk.symm
        have htm0 : lastIdxWith (fun r => r.get? 4 == some k) restA = some t := by
          rw [← hli k]
          exact htm
        obtain ⟨rA1t, hrA1t, hkA1t, _⟩ := lastIdxWith_get _ _ _ htm
        have htlt : t < restA1.length := by
          obtain ⟨hlt, _⟩ := List.get?_eq_some.mp hrA1t
          omega
        have hre : rowj = rA1t := by
          rw [List.get?_append htlt] at hrowj
          rw [hrowj] at hrA1t
          exact Option.some.inj hrA1t
        obtain ⟨rAt, hrAt, hkAt, _⟩ := lastIdxWith_get _ _ _ htm0
        have hP1 : ∀ a, rowMatchesIdx lookup (1 + t) a = (a.get? 5 == some k) :=
          rowMatchesIdx_eq_keyed (hA :: restA) lookup hb k t rAt hkf htm0 hrAt
        have hlw1 : lastWith (rowMatchesIdx lookup (1 + t)) (dataB.drop 1) = some rBm := by
          rw [lastWith_congr _ _ _ (fun a _ => hP1 a)]
          exact hlwk
        have hv : restA1.get? t = (restA.get? t).map (updateRow rBm) := by
          rw [hrow1 t, hlw1]
        rw [hrAt] at hv
        rw [hrA1t] at hv
        have hra : rA1t = updateRow rBm rAt := by simpa using hv
        rw [hre, hra]
        exact updateRow_updateRow rBm rBm rAt (by omega)
  unfold processMerge
  rw [show buildLookup ((hA1 :: restA1) ++ ns1) = some lookup2 from hb2]
  show mergeLoop lookup2 ((hA1 :: restA1) ++ ns1, []) (dataB.drop 1) =
    some ((hA1 :: restA1) ++ ns1, [])
  rw [hl2, hmain2, hns2]

theorem C7_rerun_idempotent_witness :
    processMerge ([Cell.str "h"] :: [[Cell.str "v1", Cell.str "v2", Cell.str "v3",
        Cell.str "v4", Cell.str "K1"]])
      [[Cell.str "hb"], [Cell.str "x0", Cell.str "a", Cell.str "b", Cell.str "c",
        Cell.str "d", Cell.str "K9", Cell.str "e", Cell.str "f"]] =
      some ([[Cell.str "h"], [Cell.str "v1", Cell.str "v2", Cell.str "v3",
        Cell.str "v4", Cell.str "K1"]],
       [[Cell.str "a", Cell.str "b", Cell.str "c", Cell.str "d", Cell.str "K9",
         Cell.str "e", Cell.str "f", Cell.num 400]]) ∧
    processMerge
      ([[Cell.str "h"], [Cell.str "v1", Cell.str "v2", Cell.str "v3",
        Cell.str "v4", Cell.str "K1"]] ++
       [[Cell.str "a", Cell.str "b", Cell.str "c", Cell.str "d", Cell.str "K9",
         Cell.str "e", Cell.str "f", Cell.num 400]])
      [[Cell.str "hb"], [Cell.str "x0", Cell.str "a", Cell.str "b", Cell.str "c",
        Cell.str "d", Cell.str "K9", Cell.str "e", Cell.str "f"]] =
      some (([[Cell.str "h"], [Cell.str "v1", Cell.str "v2", Cell.str "v3",
        Cell.str "v4", Cell.str "K1"]] ++
       [[Cell.str "a", Cell.str "b", Cell.str "c", Cell.str "d", Cell.str "K9",
         Cell.str "e", Cell.str "f", Cell.num 400]]), []) :=
  ⟨by decide,
   C7_rerun_idempotent [Cell.str "h"]
     [[Cell.str "v1", Cell.str "v2", Cell.str "v3", Cell.str "v4", Cell.str "K1"]]
     [[Cell.str "hb"], [Cell.str "x0", Cell.str "a", Cell.str "b", Cell.str "c",
       Cell.str "d", Cell.str "K9", Cell.str "e", Cell.str "f"]]
     [[Cell.str "h"], [Cell.str "v1", Cell.str "v2", Cell.str "v3", Cell.str "v4",
       Cell.str "K1"]]
     [[Cell.str "a", Cell.str "b", Cell.str "c", Cell.str "d", Cell.str "K9",
       Cell.str "e", Cell.str "f", Cell.num 400]]
     (by decide)⟩
